import Mathlib

/-!
# PixelForge Nexus: access control and store operations

A shallow embedding of `server/middleware.js`, `server/models/Project.js` and the route
handlers of `server/server.js`.

Conventions of the embedding.

* Object ids are strings, the hexadecimal text of an ObjectId in its stored, lower-case
  spelling. The project id of a path is taken to be well formed and in stored spelling. A
  user id or document id that a handler takes from the request and hands to the
  persistence layer goes through `Env.castObjectId`, which fails on a text that is not a
  well-formed id and otherwise gives the stored spelling.
* An Express middleware `(req, res, next)` is a function returning an `Effect`: the request
  object as the middleware leaves it, the response it sent (if any), how often it called
  `next`, and the tokens it handed to `jwt.verify`.
* The three collections and the upload directory form the `Store`; a route is a function
  from a store and a request to a `Result`.
* Library calls whose code is not part of the repository (`jwt.verify`, `jwt.sign`, the
  password comparison of the user model) are parameters, collected in `Env`.
-/

namespace PixelForge

/-! ## Data model -/

/-- Payload of a bearer token, as signed by the login route: `{ id, username, role }`. -/
structure Identity where
  id : String
  username : String
  role : String
  deriving DecidableEq, Repr

/-- Modelled from the spec: `models/User.js` is not among the sources. A user record of
the credential store has an id, a username, an email, a password kept only as a salted
hash, and a role; `createdAt` is the timestamp the user listing sorts by. -/
structure User where
  _id : String
  username : String
  email : String
  password : String
  role : String
  createdAt : Nat
  deriving DecidableEq, Repr

/-- A project record (`projectSchema` of `models/Project.js`). -/
structure Project where
  _id : String
  name : String
  description : String
  deadline : Option Nat
  status : String
  createdBy : String
  teamMembers : List String
  createdAt : Nat
  deriving DecidableEq, Repr

/-- Modelled from the spec: `models/Document.js` is not among the sources. A document
metadata row has the fields the upload route passes to `new Document`, an id and a
creation timestamp. -/
structure Document where
  _id : String
  project : String
  filename : String
  originalName : String
  filePath : String
  fileSize : Nat
  mimeType : String
  uploadedBy : String
  createdAt : Nat
  deriving DecidableEq, Repr

/-- The persisted state: the three collections and the paths present in the upload directory. -/
structure Store where
  users : List User
  projects : List Project
  documents : List Document
  files : List String
  deriving DecidableEq, Repr

/-! ## Requests and responses -/

/-- The file part of a multipart upload, before multer has handled it. -/
structure Multipart where
  fieldname : String
  originalname : String
  mimetype : String
  size : Nat
  deriving DecidableEq, Repr

/-- The value multer leaves in `req.file` after storing an upload. -/
structure UploadedFile where
  filename : String
  originalname : String
  path : String
  size : Nat
  mimetype : String
  deriving DecidableEq, Repr

/-- Route parameters (`req.params`). -/
structure Params where
  projectId : String := ""
  userId : String := ""
  documentId : String := ""
  deriving DecidableEq, Repr

/-- The JSON body (`req.body`). A string field that is absent is the empty string, except
`status`, where an absent field and an empty string behave differently. `createdBy` is a
field a client may send although no handler reads it. -/
structure ReqBody where
  username : String := ""
  email : String := ""
  password : String := ""
  role : String := ""
  name : String := ""
  description : String := ""
  deadline : Option Nat := none
  status : Option String := none
  userId : String := ""
  createdBy : String := ""
  deriving DecidableEq, Repr

/-- An incoming request as the middleware chain sees it. `user` is `req.user`, `file` is
`req.file`; both are unset when the request arrives. -/
structure Req where
  authorization : Option String := none
  params : Params := {}
  body : ReqBody := {}
  upload : Option Multipart := none
  user : Option Identity := none
  file : Option UploadedFile := none
  deriving DecidableEq, Repr

/-- A user as serialised in a response; a field that was not selected is `none`. -/
structure UserView where
  _id : String
  username : Option String := none
  email : Option String := none
  password : Option String := none
  role : Option String := none
  createdAt : Option Nat := none
  deriving DecidableEq, Repr

/-- A project as serialised in a response, with populated references and the virtual
`teamSize`. -/
structure ProjectView where
  _id : String
  name : String
  description : String
  deadline : Option Nat
  status : String
  createdBy : Option UserView
  teamMembers : List UserView
  createdAt : Nat
  teamSize : Nat
  deriving DecidableEq, Repr

/-- A document row as serialised in a response, with the uploader populated. -/
structure DocumentView where
  _id : String
  project : String
  filename : String
  originalName : String
  filePath : String
  fileSize : Nat
  mimeType : String
  uploadedBy : Option UserView
  createdAt : Nat
  deriving DecidableEq, Repr

/-- The user object of a login response. -/
structure LoginUser where
  id : String
  username : String
  email : String
  role : String
  deriving DecidableEq, Repr

/-- Response payloads. -/
inductive Payload where
  | error (msg : String)
  | message (msg : String)
  | projectCreated (msg : String) (projectId : String)
  | login (token : String) (user : LoginUser)
  | users (us : List UserView)
  | projects (ps : List ProjectView)
  | project (p : ProjectView)
  | documents (ds : List DocumentView)
  | unhandled (msg : String)
  deriving DecidableEq, Repr

/-- What `res.status(code).json(payload)` sends. -/
structure Response where
  status : Nat
  body : Payload
  deriving DecidableEq, Repr

/-- Library and missing-model functions the server is parameterised by. -/
structure Env where
  /-- Models `jwt.verify(token, JWT_SECRET, cb)`: an error or the decoded payload. -/
  verify : String → Except String Identity
  /-- Models `jwt.sign(payload, JWT_SECRET, { expiresIn })`. -/
  sign : Identity → String → String
  /-- Models `user.comparePassword(password)` of the user model. -/
  comparePassword : User → String → Bool
  /-- Models the one-way salted hash applied to a password before it is stored. -/
  hashPassword : String → String
  /-- The directory uploads are written to. -/
  uploadsDir : String
  /-- Models the cast of a text to an ObjectId, which the persistence layer applies to an
  id taken from a request: `none` when the text is not a well-formed id and the cast
  throws, otherwise the stored spelling of the id. -/
  castObjectId : String → Option String

/-- Values the runtime draws while serving one request: the ObjectId of a new row, the
uuid of a stored file, and the clock. -/
structure Fresh where
  oid : String
  uuid : String
  now : Nat
  deriving DecidableEq, Repr

/-! ## Middleware (`server/middleware.js`) -/

/-- What one middleware invocation did. -/
structure Effect where
  req : Req
  store : Store
  sent : Option Response
  nextCalls : Nat
  verified : List String
  deriving Repr

/-- The code path `return res.status(code).json(body)`. -/
def Effect.respond (req : Req) (s : Store) (code : Nat) (body : Payload)
    (verified : List String) : Effect :=
  { req := req, store := s, sent := some ⟨code, body⟩, nextCalls := 0, verified := verified }

/-- The code path `next()`. -/
def Effect.callNext (req : Req) (s : Store) (verified : List String) : Effect :=
  { req := req, store := s, sent := none, nextCalls := 1, verified := verified }

/-- Models `str.split(sep)` for a one-character separator, on character lists. -/
def splitChars (sep : Char) : List Char → List (List Char)
  | [] => [[]]
  | c :: cs =>
    if c = sep then [] :: splitChars sep cs
    else
      match splitChars sep cs with
      | [] => [[c]]
      | w :: ws => (c :: w) :: ws

/-- Models `authHeader && authHeader.split(' ')[1]`; `none` stands for `undefined`. -/
def extractToken (authHeader : Option String) : Option String :=
  match authHeader with
  | none => none
  | some h =>
    if h = "" then some ""
    else ((splitChars ' ' h.data).get? 1).map String.mk

/-- Models `authenticateToken`. The test `!token` holds when `token` is `undefined` or the
empty string. -/
def authenticateToken (env : Env) (s : Store) (req : Req) : Effect :=
  match extractToken req.authorization with
  | none => Effect.respond req s 401 (.error "Access token required") []
  | some token =>
    if token = "" then
      Effect.respond req s 401 (.error "Access token required") []
    else
      match env.verify token with
      | .error _ => Effect.respond req s 403 (.error "Invalid or expired token") [token]
      | .ok user => Effect.callNext { req with user := some user } s [token]

/-- Models the gate returned by `requireRole(roles)`. -/
def requireRole (roles : List String) (s : Store) (req : Req) : Effect :=
  match req.user with
  | none => Effect.respond req s 401 (.error "Authentication required") []
  | some user =>
    if !(roles.contains user.role) then
      Effect.respond req s 403 (.error "Insufficient permissions") []
    else
      Effect.callNext req s []

/-- Models `Project.findById(projectId)`. -/
def Project.findById (projects : List Project) (projectId : String) : Option Project :=
  projects.find? (fun p => p._id == projectId)

/-- The expression bound to `hasAccess` in `requireProjectAccess`. -/
def hasAccess (user : Identity) (project : Project) : Bool :=
  user.role == "admin" ||
  project.createdBy == user.id ||
  project.teamMembers.any (fun member => member == user.id)

/-- Models `requireProjectAccess`. Reading `req.user.id` of an unset `req.user` throws
inside the `try`, which the `catch` turns into a 500. -/
def requireProjectAccess (s : Store) (req : Req) : Effect :=
  match req.user with
  | none => Effect.respond req s 500 (.error "Server error") []
  | some user =>
    match Project.findById s.projects req.params.projectId with
    | none => Effect.respond req s 404 (.error "Project not found") []
    | some project =>
      if !(hasAccess user project) then
        Effect.respond req s 403 (.error "Access denied to this project") []
      else
        Effect.callNext req s []

/-! ## JavaScript string helpers -/

/-- The characters `String.prototype.trim` removes (white space and line terminators). -/
def isJsWhitespace (c : Char) : Bool :=
  let n := c.toNat
  n == 0x09 || n == 0x0A || n == 0x0B || n == 0x0C || n == 0x0D || n == 0x20 ||
  n == 0xA0 || n == 0x1680 || (0x2000 ≤ n && n ≤ 0x200A) || n == 0x2028 || n == 0x2029 ||
  n == 0x202F || n == 0x205F || n == 0x3000 || n == 0xFEFF

/-- Models `str.trim()`. -/
def jsTrim (str : String) : String :=
  String.mk ((str.data.dropWhile isJsWhitespace).reverse.dropWhile isJsWhitespace).reverse

/-- Models `str.length`: the number of UTF-16 code units. -/
def jsLength (str : String) : Nat :=
  (str.data.map (fun c => if c.toNat < 0x10000 then 1 else 2)).sum

/-- Tells whether `needle` occurs in `hay` as a contiguous block. -/
def containsChars (needle : List Char) : List Char → Bool
  | [] => needle.isEmpty
  | c :: cs => needle.isPrefixOf (c :: cs) || containsChars needle cs

/-! ## Store queries -/

/-- Replaces the first element satisfying `p` by its image under `f`: the effect of an
update addressed by id on a collection. -/
def updateFirst {α : Type} (p : α → Bool) (f : α → α) : List α → List α
  | [] => []
  | x :: xs => if p x then f x :: xs else x :: updateFirst p f xs

/-- A field selection of a query: the listed fields only, or all but the listed fields. -/
inductive Selection where
  | inclusive (fields : List String)
  | exclusive (fields : List String)
  deriving DecidableEq, Repr

/-- Tells whether a selection keeps a field. -/
def Selection.keeps : Selection → String → Bool
  | .inclusive fields, f => fields.contains f
  | .exclusive fields, f => !(fields.contains f)

/-- Serialises a user under a field selection; the id is always kept. -/
def User.select (sel : Selection) (u : User) : UserView :=
  { _id := u._id
    username := if sel.keeps "username" then some u.username else none
    email := if sel.keeps "email" then some u.email else none
    password := if sel.keeps "password" then some u.password else none
    role := if sel.keeps "role" then some u.role else none
    createdAt := if sel.keeps "createdAt" then some u.createdAt else none }

/-- Models `User.findOne({ username })`. -/
def User.findOne (users : List User) (username : String) : Option User :=
  users.find? (fun u => u.username == username)

/-- Models `.populate(path, fields)` on a single reference: the referenced user under the
selection, or `null` when no user has that id. -/
def populateOne (users : List User) (sel : Selection) (id : String) : Option UserView :=
  (users.find? (fun u => u._id == id)).map (User.select sel)

/-- Models `.populate(path, fields)` on an array of references: references to users that
do not exist are dropped from the populated array. -/
def populateMany (users : List User) (sel : Selection) (ids : List String) : List UserView :=
  ids.filterMap (populateOne users sel)

/-- Serialises a project with `createdBy` and `teamMembers` populated under the given
selections; `teamSize` is the virtual of `models/Project.js`. -/
def Project.view (users : List User) (creatorSel memberSel : Selection) (p : Project) :
    ProjectView :=
  let members := populateMany users memberSel p.teamMembers
  { _id := p._id, name := p.name, description := p.description, deadline := p.deadline,
    status := p.status, createdBy := populateOne users creatorSel p.createdBy,
    teamMembers := members, createdAt := p.createdAt, teamSize := members.length }

/-- Serialises a document row with `uploadedBy` populated. -/
def Document.view (users : List User) (sel : Selection) (d : Document) : DocumentView :=
  { _id := d._id, project := d.project, filename := d.filename,
    originalName := d.originalName, filePath := d.filePath, fileSize := d.fileSize,
    mimeType := d.mimeType, uploadedBy := populateOne users sel d.uploadedBy,
    createdAt := d.createdAt }

/-- Models `.sort({ createdAt: -1 })` on projects. -/
def sortProjectsNewestFirst (ps : List Project) : List Project :=
  ps.insertionSort (fun a b => a.createdAt ≥ b.createdAt)

/-- Models `.sort({ createdAt: -1 })` on users. -/
def sortUsersNewestFirst (us : List User) : List User :=
  us.insertionSort (fun a b => a.createdAt ≥ b.createdAt)

/-- Models `.sort({ createdAt: -1 })` on documents. -/
def sortDocumentsNewestFirst (ds : List Document) : List Document :=
  ds.insertionSort (fun a b => a.createdAt ≥ b.createdAt)

/-- Models `.sort({ username: 1 })` on users. -/
def sortUsersByUsername (us : List User) : List User :=
  us.insertionSort (fun a b => a.username ≤ b.username)

/-! ## Upload handling (the multer configuration of `server/server.js`) -/

/-- Loop state of `path.extname`. -/
structure ExtState where
  startDot : Int
  startPart : Int
  endPos : Int
  matchedSlash : Bool
  preDotState : Int
  stopped : Bool
  deriving DecidableEq, Repr

/-- One iteration of the backwards scan of `path.extname`, at index `i`. -/
def extnameStep (path : List Char) (st : ExtState) (i : Nat) : ExtState :=
  if st.stopped then st
  else
    let code := path.getD i ' '
    if code = '/' then
      if !st.matchedSlash then { st with startPart := i + 1, stopped := true } else st
    else
      let st1 := if st.endPos = -1 then { st with matchedSlash := false, endPos := i + 1 } else st
      if code = '.' then
        if st1.startDot = -1 then { st1 with startDot := i }
        else if st1.preDotState ≠ 1 then { st1 with preDotState := 1 }
        else st1
      else if st1.startDot ≠ -1 then { st1 with preDotState := -1 }
      else st1

/-- Models `path.extname(p)` (POSIX flavour). -/
def extname (p : String) : String :=
  let path := p.data
  let init : ExtState :=
    { startDot := -1, startPart := 0, endPos := -1, matchedSlash := true, preDotState := 0,
      stopped := false }
  let st := (List.range path.length).reverse.foldl (extnameStep path) init
  if st.startDot = -1 || st.endPos = -1 || st.preDotState = 0 ||
      (st.preDotState = 1 && st.startDot = st.endPos - 1 && st.startDot = st.startPart + 1) then
    ""
  else
    String.mk ((path.take st.endPos.toNat).drop st.startDot.toNat)

/-- The alternatives of the regular expression `allowedTypes`. -/
def allowedTypes : List String :=
  ["jpeg", "jpg", "png", "gif", "pdf", "doc", "docx", "txt", "zip", "rar"]

/-- Models `allowedTypes.test(str)`: the expression is not anchored, so it matches when
one of its alternatives occurs anywhere in `str`. -/
def allowedTypesTest (str : String) : Bool :=
  allowedTypes.any (fun alt => containsChars alt.data str.data)

/-- Models `str.toLowerCase()`; only the mapping of the letters `A` to `Z` can change
whether `allowedTypes` matches. -/
def toLowerCase (str : String) : String :=
  String.mk (str.data.map Char.toLower)

/-- The `fileFilter` of the multer configuration: `true` accepts the file, `false` is the
error `Invalid file type`. -/
def fileFilter (file : Multipart) : Bool :=
  let extOk := allowedTypesTest (toLowerCase (extname file.originalname))
  let mimeOk := allowedTypesTest file.mimetype
  mimeOk && extOk

/-- The `limits.fileSize` of the multer configuration. -/
def fileSizeLimit : Nat := 10 * 1024 * 1024

/-- The `filename` callback of the disk storage. -/
def storedFilename (uuid originalname : String) : String :=
  uuid ++ "-" ++ originalname

/-- Models `upload.single('file')`. A request without a file part passes with `req.file`
unset. A rejected upload ends in the default error handler, which answers 500; nothing
stays on disk. An accepted upload is written to the upload directory. -/
def uploadSingle (env : Env) (fresh : Fresh) (s : Store) (req : Req) : Effect :=
  match req.upload with
  | none => Effect.callNext req s []
  | some part =>
    if part.fieldname != "file" then
      Effect.respond req s 500 (.unhandled "Unexpected field") []
    else if !(fileFilter part) then
      Effect.respond req s 500 (.unhandled "Invalid file type") []
    else if part.size > fileSizeLimit then
      Effect.respond req s 500 (.unhandled "File too large") []
    else
      let filename := storedFilename fresh.uuid part.originalname
      let path := env.uploadsDir ++ "/" ++ filename
      let file : UploadedFile :=
        { filename := filename, originalname := part.originalname, path := path,
          size := part.size, mimetype := part.mimetype }
      Effect.callNext { req with file := some file } { s with files := s.files.insert path } []

/-! ## Persistence operations -/

/-- Failure of a `save()`: a duplicate-key conflict (code 11000) or any other error. -/
inductive SaveError where
  | duplicateKey
  | other
  deriving DecidableEq, Repr

/-- The roles of the system. -/
def knownRoles : List String := ["admin", "project_lead", "developer"]

/-- Modelled from the spec: `models/User.js`, which defines the user schema and its
pre-save hook, is not among the sources. A user has a role among admin, project_lead and
developer; username and email are unique, as is the id; the password is stored only as a
salted hash. -/
def User.save (env : Env) (fresh : Fresh) (users : List User) (b : ReqBody) :
    Except SaveError (List User) :=
  if !(knownRoles.contains b.role) then .error .other
  else if users.any (fun u => u._id == fresh.oid || u.username == b.username ||
      u.email == b.email) then .error .duplicateKey
  else
    .ok (users ++ [{ _id := fresh.oid, username := b.username, email := b.email,
                     password := env.hashPassword b.password, role := b.role,
                     createdAt := fresh.now }])

/-- Models `new Project({ name, description, deadline, createdBy })` followed by `save()`
under `projectSchema`: `name` and `description` are trimmed, `name` is required and at
most 100 long, `description` at most 1000 long, `status` defaults to `active` and
`teamMembers` to the empty array; the id is unique in the collection. -/
def Project.create (fresh : Fresh) (projects : List Project) (b : ReqBody)
    (createdBy : String) : Except SaveError (Project × List Project) :=
  let name := jsTrim b.name
  let description := jsTrim b.description
  if name = "" || jsLength name > 100 || jsLength description > 1000 then .error .other
  else if projects.any (fun p => p._id == fresh.oid) then .error .duplicateKey
  else
    let project : Project :=
      { _id := fresh.oid, name := name, description := description, deadline := b.deadline,
        status := "active", createdBy := createdBy, teamMembers := [],
        createdAt := fresh.now }
    .ok (project, projects ++ [project])

/-- Models `new Document({ ... })` followed by `save()` as the upload route calls it: the
row is stored with the fields given; the id is unique in the collection. -/
def Document.create (fresh : Fresh) (documents : List Document) (projectId : String)
    (file : UploadedFile) (uploadedBy : String) : Except SaveError (List Document) :=
  if documents.any (fun d => d._id == fresh.oid) then .error .duplicateKey
  else
    .ok (documents ++ [{ _id := fresh.oid, project := projectId, filename := file.filename,
                         originalName := file.originalname, filePath := file.path,
                         fileSize := file.size, mimeType := file.mimetype,
                         uploadedBy := uploadedBy, createdAt := fresh.now }])

/-! ## Route handlers (`server/server.js`) -/

/-- The generic failure answer of every `catch` block. -/
def serverError : Response := ⟨500, .error "Server error"⟩

/-- Handler of `POST /api/auth/login`. -/
def loginHandler (env : Env) (s : Store) (req : Req) : Store × Response :=
  match User.findOne s.users req.body.username with
  | none => (s, ⟨401, .error "Invalid credentials"⟩)
  | some user =>
    if !(env.comparePassword user req.body.password) then
      (s, ⟨401, .error "Invalid credentials"⟩)
    else
      let token :=
        env.sign { id := user._id, username := user.username, role := user.role } "24h"
      (s, ⟨200, .login token { id := user._id, username := user.username,
                               email := user.email, role := user.role }⟩)

/-- Handler of `GET /api/users`. -/
def listUsersHandler (s : Store) (_req : Req) : Store × Response :=
  (s, ⟨200, .users ((sortUsersNewestFirst s.users).map
    (User.select (.exclusive ["password"])))⟩)

/-- Handler of `POST /api/users`. -/
def createUserHandler (env : Env) (fresh : Fresh) (s : Store) (req : Req) :
    Store × Response :=
  match User.save env fresh s.users req.body with
  | .ok users => ({ s with users := users }, ⟨201, .message "User created successfully"⟩)
  | .error .duplicateKey => (s, ⟨400, .error "Username or email already exists"⟩)
  | .error .other => (s, serverError)

/-- Handler of `GET /api/projects`. -/
def listProjectsHandler (s : Store) (req : Req) : Store × Response :=
  match req.user with
  | none => (s, serverError)
  | some user =>
    let found :=
      if user.role == "admin" then s.projects
      else if user.role == "project_lead" then
        s.projects.filter (fun p => p.createdBy == user.id)
      else s.projects.filter (fun p => p.teamMembers.contains user.id)
    (s, ⟨200, .projects ((sortProjectsNewestFirst found).map
      (Project.view s.users (.inclusive ["username"]) (.inclusive ["username"])))⟩)

/-- Handler of `POST /api/projects`. -/
def createProjectHandler (fresh : Fresh) (s : Store) (req : Req) : Store × Response :=
  match req.user with
  | none => (s, serverError)
  | some user =>
    match Project.create fresh s.projects req.body user.id with
    | .ok (project, projects) =>
      ({ s with projects := projects },
        ⟨201, .projectCreated "Project created successfully" project._id⟩)
    | .error _ => (s, serverError)

/-- Handler of `PUT /api/projects/:projectId/status`. `findByIdAndUpdate` runs no schema
validators and skips a field whose value is `undefined`. -/
def updateStatusHandler (s : Store) (req : Req) : Store × Response :=
  let projects :=
    match req.body.status with
    | none => s.projects
    | some status =>
      updateFirst (fun p => p._id == req.params.projectId)
        (fun p => { p with status := status }) s.projects
  ({ s with projects := projects }, ⟨200, .message "Project status updated successfully"⟩)

/-- Handler of `GET /api/projects/:projectId/assignments`. -/
def listAssignmentsHandler (s : Store) (req : Req) : Store × Response :=
  match Project.findById s.projects req.params.projectId with
  | none => (s, ⟨404, .error "Project not found"⟩)
  | some project =>
    (s, ⟨200, .users (populateMany s.users (.inclusive ["username", "email", "role"])
      project.teamMembers)⟩)

/-- Handler of `POST /api/projects/:projectId/assignments`. The test
`teamMembers.includes(userId)` compares the text of the request with the stored spelling
of each member; `teamMembers.push(userId)` casts the text to an ObjectId, which throws on
a text that is not a well-formed id and lands in the `catch` block. -/
def assignHandler (env : Env) (s : Store) (req : Req) : Store × Response :=
  match Project.findById s.projects req.params.projectId with
  | none => (s, ⟨404, .error "Project not found"⟩)
  | some project =>
    if project.teamMembers.contains req.body.userId then
      (s, ⟨400, .error "User is already assigned to this project"⟩)
    else
      match env.castObjectId req.body.userId with
      | none => (s, serverError)
      | some userId =>
        let saved := { project with teamMembers := project.teamMembers ++ [userId] }
        let projects :=
          updateFirst (fun p => p._id == req.params.projectId) (fun _ => saved) s.projects
        ({ s with projects := projects },
          ⟨201, .message "User assigned to project successfully"⟩)

/-- Handler of `DELETE /api/projects/:projectId/assignments/:userId`. The update
`$pull: { teamMembers: userId }` casts the text of the path to an ObjectId, which throws
on a text that is not a well-formed id and lands in the `catch` block; otherwise every
occurrence of that id is removed. -/
def unassignHandler (env : Env) (s : Store) (req : Req) : Store × Response :=
  match env.castObjectId req.params.userId with
  | none => (s, serverError)
  | some userId =>
    let projects :=
      updateFirst (fun p => p._id == req.params.projectId)
        (fun p => { p with teamMembers := p.teamMembers.filter (fun m => m != userId) })
        s.projects
    ({ s with projects := projects },
      ⟨200, .message "User removed from project successfully"⟩)

/-- Handler of `GET /api/projects/:projectId/documents`. -/
def listDocumentsHandler (s : Store) (req : Req) : Store × Response :=
  let found := s.documents.filter (fun d => d.project == req.params.projectId)
  (s, ⟨200, .documents ((sortDocumentsNewestFirst found).map
    (Document.view s.users (.inclusive ["username"])))⟩)

/-- Handler of `POST /api/projects/:projectId/documents`. -/
def uploadDocumentHandler (fresh : Fresh) (s : Store) (req : Req) : Store × Response :=
  match req.file with
  | none => (s, ⟨400, .error "No file uploaded"⟩)
  | some file =>
    match req.user with
    | none => (s, serverError)
    | some user =>
      match Document.create fresh s.documents req.params.projectId file user.id with
      | .ok documents =>
        ({ s with documents := documents }, ⟨201, .message "Document uploaded successfully"⟩)
      | .error _ => (s, serverError)

/-- Handler of `DELETE /api/documents/:documentId`. `Document.findById(documentId)` casts
the text of the path to an ObjectId, which throws on a text that is not a well-formed id
and lands in the `catch` block; otherwise the row is looked up, and deleted, under the
stored spelling of the id. -/
def deleteDocumentHandler (env : Env) (s : Store) (req : Req) : Store × Response :=
  match env.castObjectId req.params.documentId with
  | none => (s, serverError)
  | some documentId =>
    match s.documents.find? (fun d => d._id == documentId) with
    | none => (s, ⟨404, .error "Document not found"⟩)
    | some document =>
      let files :=
        if s.files.contains document.filePath then
          s.files.filter (fun f => f != document.filePath)
        else s.files
      ({ s with files := files,
                documents := s.documents.eraseP (fun d => d._id == documentId) },
        ⟨200, .message "Document deleted successfully"⟩)

/-- Handler of `GET /api/users/available`. -/
def availableUsersHandler (s : Store) (_req : Req) : Store × Response :=
  let found := s.users.filter (fun u => u.role == "developer")
  (s, ⟨200, .users ((sortUsersByUsername found).map
    (User.select (.inclusive ["username", "email", "role"])))⟩)

/-- Handler of `GET /api/projects/:projectId`. -/
def projectDetailsHandler (s : Store) (req : Req) : Store × Response :=
  match Project.findById s.projects req.params.projectId with
  | none => (s, ⟨404, .error "Project not found"⟩)
  | some project =>
    (s, ⟨200, .project (Project.view s.users (.inclusive ["username"])
      (.inclusive ["username", "email", "role"]) project)⟩)

/-! ## Routing -/

/-- The routes of the server. -/
inductive Route where
  | login
  | listUsers
  | createUser
  | listProjects
  | createProject
  | updateStatus
  | listAssignments
  | assign
  | unassign
  | listDocuments
  | uploadDocument
  | deleteDocument
  | availableUsers
  | projectDetails
  deriving DecidableEq, Repr

/-- The middleware that can stand in front of a handler. -/
inductive Gate where
  | authenticateToken
  | requireRole (roles : List String)
  | requireProjectAccess
  | uploadSingle
  deriving DecidableEq, Repr

/-- Runs one middleware. -/
def Gate.run (env : Env) (fresh : Fresh) : Gate → Store → Req → Effect
  | .authenticateToken => PixelForge.authenticateToken env
  | .requireRole roles => PixelForge.requireRole roles
  | .requireProjectAccess => PixelForge.requireProjectAccess
  | .uploadSingle => PixelForge.uploadSingle env fresh

/-- The middleware registered in front of each route, in order. -/
def Route.gates : Route → List Gate
  | .login => []
  | .listUsers => [.authenticateToken, .requireRole ["admin"]]
  | .createUser => [.authenticateToken, .requireRole ["admin"]]
  | .listProjects => [.authenticateToken]
  | .createProject => [.authenticateToken, .requireRole ["admin"]]
  | .updateStatus => [.authenticateToken, .requireRole ["admin"]]
  | .listAssignments => [.authenticateToken, .requireProjectAccess]
  | .assign => [.authenticateToken, .requireRole ["admin", "project_lead"]]
  | .unassign => [.authenticateToken, .requireRole ["admin", "project_lead"]]
  | .listDocuments => [.authenticateToken, .requireProjectAccess]
  | .uploadDocument =>
    [.authenticateToken, .requireRole ["admin", "project_lead"], .uploadSingle]
  | .deleteDocument => [.authenticateToken, .requireRole ["admin", "project_lead"]]
  | .availableUsers => [.authenticateToken, .requireRole ["admin", "project_lead"]]
  | .projectDetails => [.authenticateToken, .requireProjectAccess]

/-- The handler registered for each route. -/
def Route.handler (env : Env) (fresh : Fresh) : Route → Store → Req → Store × Response
  | .login => loginHandler env
  | .listUsers => listUsersHandler
  | .createUser => createUserHandler env fresh
  | .listProjects => listProjectsHandler
  | .createProject => createProjectHandler fresh
  | .updateStatus => updateStatusHandler
  | .listAssignments => listAssignmentsHandler
  | .assign => assignHandler env
  | .unassign => unassignHandler env
  | .listDocuments => listDocumentsHandler
  | .uploadDocument => uploadDocumentHandler fresh
  | .deleteDocument => deleteDocumentHandler env
  | .availableUsers => availableUsersHandler
  | .projectDetails => projectDetailsHandler

/-- What serving one request did: the store afterwards, the response sent, whether the
route handler ran, and the tokens handed to `jwt.verify`. -/
structure Result where
  store : Store
  response : Option Response
  handlerRan : Bool
  verified : List String
  deriving Repr

/-- Runs a middleware chain in front of a handler: a middleware that does not call `next`
ends the request with whatever it sent. -/
def runChain (env : Env) (fresh : Fresh) (handler : Store → Req → Store × Response) :
    List Gate → Store → Req → Result
  | [], s, req =>
    let out := handler s req
    { store := out.1, response := some out.2, handlerRan := true, verified := [] }
  | g :: gs, s, req =>
    let e := g.run env fresh s req
    if e.nextCalls = 0 then
      { store := e.store, response := e.sent, handlerRan := false, verified := e.verified }
    else
      let rest := runChain env fresh handler gs e.store e.req
      { rest with verified := e.verified ++ rest.verified }

/-- Serves one request on a route. -/
def serve (env : Env) (fresh : Fresh) (route : Route) (s : Store) (req : Req) : Result :=
  runChain env fresh (route.handler env fresh) route.gates s req

/-- The stores the server can reach from `s0` by serving requests. -/
inductive Reachable (env : Env) (s0 : Store) : Store → Prop where
  | start : Reachable env s0 s0
  | step (s : Store) (fresh : Fresh) (route : Route) (req : Req) :
      Reachable env s0 s → Reachable env s0 (serve env fresh route s req).store

/-! ## Invariants -/

/-- The invariant: no project lists a user id twice among its team members. -/
def NoDuplicateMembers (s : Store) : Prop :=
  ∀ p ∈ s.projects, p.teamMembers.Nodup

/-! ## Sample data -/

/-- The cast of the sample environment. The sample ids are short: a well-formed id is a
letter followed by digits, and its stored spelling has the letter in lower case, the way
an ObjectId is 24 hexadecimal digits stored in lower case. So `U2` is another spelling of
`u2`, and `xyz`, `not-an-object-id` and the empty text are not well-formed ids. -/
def sampleCast (text : String) : Option String :=
  match text.data with
  | c :: d :: ds =>
    if c.isAlpha && (d :: ds).all Char.isDigit then some (String.mk (c.toLower :: d :: ds))
    else none
  | _ => none

/-- A sample environment: the token `tok-admin` verifies to an admin, `tok-dev` to a
developer, `tok-lead` to a project lead; a password matches when it equals the stored
value. -/
def sampleEnv : Env :=
  { verify := fun token =>
      if token = "tok-admin" then .ok { id := "u1", username := "admin", role := "admin" }
      else if token = "tok-dev" then .ok { id := "u2", username := "dana", role := "developer" }
      else if token = "tok-lead" then
        .ok { id := "u3", username := "lee", role := "project_lead" }
      else .error "invalid signature"
    sign := fun payload expiresIn => payload.id ++ "." ++ payload.role ++ "." ++ expiresIn
    comparePassword := fun u password => u.password == password
    hashPassword := fun password => password
    uploadsDir := "uploads"
    castObjectId := sampleCast }

/-- Sample fresh values. -/
def sampleFresh : Fresh := { oid := "p9", uuid := "0000", now := 7 }

/-- A sample store: three users and two projects. -/
def sampleStore : Store :=
  { users :=
      [ { _id := "u1", username := "admin", email := "admin@pixelforge.com",
          password := "admin123", role := "admin", createdAt := 1 },
        { _id := "u2", username := "dana", email := "dana@pixelforge.com",
          password := "secret", role := "developer", createdAt := 2 },
        { _id := "u3", username := "lee", email := "lee@pixelforge.com",
          password := "hidden", role := "project_lead", createdAt := 3 } ]
    projects :=
      [ { _id := "p1", name := "Atlas", description := "", deadline := none,
          status := "active", createdBy := "u1", teamMembers := ["u2"], createdAt := 4 },
        { _id := "p2", name := "Borealis", description := "", deadline := none,
          status := "active", createdBy := "u3", teamMembers := [], createdAt := 5 } ]
    documents := []
    files := [] }

/-- The creation request of the sample run: the admin creates project `Nova`. -/
def sampleCreateReq : Req :=
  { authorization := some "Bearer tok-admin", body := { name := "Nova" } }

/-- The assignment request of the sample run: the project lead assigns `u2` to `p9`. -/
def sampleAssignReq : Req :=
  { authorization := some "Bearer tok-lead", params := { projectId := "p9" },
    body := { userId := "u2" } }

/-- The read request of the sample run: the developer `u2` reads project `p9`. -/
def sampleGetReq : Req :=
  { authorization := some "Bearer tok-dev", params := { projectId := "p9" } }

/-- The creator recorded for the project stored under `pid`, if there is one. -/
def creatorOf (projects : List Project) (pid : String) : Option String :=
  (Project.findById projects pid).map (fun p => p.createdBy)

/-- The predicate that every stored status is one of the two values of the schema enum. -/
def StatusValid (s : Store) : Prop :=
  ∀ p ∈ s.projects, p.status = "active" ∨ p.status = "completed"

/-- A sample upload: the admin sends a 1 KB file `note.txt` of type `text/plain` to
project `p1`. -/
def sampleUploadTxtReq : Req :=
  { authorization := some "Bearer tok-admin", params := { projectId := "p1" },
    upload := some ⟨"file", "note.txt", "text/plain", 1024⟩ }

/-- A sample upload: the admin sends a 1 KB picture to the id `p404`, under which the
sample store holds no project. -/
def sampleOrphanUploadReq : Req :=
  { authorization := some "Bearer tok-admin", params := { projectId := "p404" },
    upload := some ⟨"file", "logo.png", "image/png", 1024⟩ }

/-- A sample listing of the documents of project `p1` by the admin. -/
def sampleListDocumentsReq : Req :=
  { authorization := some "Bearer tok-admin", params := { projectId := "p1" } }

/-- A sample status update: the admin sets the status of project `p1` to `archived`. -/
def sampleStatusReq : Req :=
  { authorization := some "Bearer tok-admin", params := { projectId := "p1" },
    body := { status := some "archived" } }

/-- A sample deletion of document `d1` by the admin, and the same by the project lead. -/
def sampleDeleteReq (token : String) : Req :=
  { authorization := some ("Bearer " ++ token), params := { documentId := "d1" } }

/-- A sample store with one document `d1` of project `p1`, whose file is on disk. -/
def sampleStoreWithDocument : Store :=
  { sampleStore with
    documents :=
      [ { _id := "d1", project := "p1", filename := "0000-logo.png",
          originalName := "logo.png", filePath := "uploads/0000-logo.png", fileSize := 1024,
          mimeType := "image/png", uploadedBy := "u1", createdAt := 6 } ]
    files := ["uploads/0000-logo.png"] }

/-- A sample creation request whose body names another user as creator. -/
def sampleSpoofCreateReq : Req :=
  { authorization := some "Bearer tok-admin", body := { name := "Nova", createdBy := "u2" } }

/-- The value `upload.single` leaves in `req.file` for an accepted file part. -/
def acceptedFile (env : Env) (fresh : Fresh) (part : Multipart) : UploadedFile :=
  { filename := storedFilename fresh.uuid part.originalname,
    originalname := part.originalname,
    path := env.uploadsDir ++ "/" ++ storedFilename fresh.uuid part.originalname,
    size := part.size, mimetype := part.mimetype }

/-- The store after `upload.single` has written an accepted file part to disk. -/
def storeWithFile (env : Env) (fresh : Fresh) (part : Multipart) (s : Store) : Store :=
  { s with files := s.files.insert (acceptedFile env fresh part).path }

/-- The document row the upload route creates for an accepted file part. -/
def uploadedRow (env : Env) (fresh : Fresh) (part : Multipart) (projectId uploadedBy : String) :
    Document :=
  { _id := fresh.oid, project := projectId,
    filename := (acceptedFile env fresh part).filename,
    originalName := part.originalname, filePath := (acceptedFile env fresh part).path,
    fileSize := part.size, mimeType := part.mimetype, uploadedBy := uploadedBy,
    createdAt := fresh.now }

/-- Sample fresh values for a document upload. -/
def sampleDocFresh : Fresh := { oid := "d9", uuid := "0000", now := 8 }

/-- A sample status update addressed to the id `p404`, under which the sample store holds
no project. -/
def sampleMissingStatusReq : Req :=
  { authorization := some "Bearer tok-admin", params := { projectId := "p404" },
    body := { status := some "completed" } }

/-- A sample removal of member `u2` addressed to the id `p404`. -/
def sampleMissingUnassignReq : Req :=
  { authorization := some "Bearer tok-admin",
    params := { projectId := "p404", userId := "u2" } }

/-- A sample user creation: the admin creates a developer whose username is taken. -/
def sampleDuplicateUserReq : Req :=
  { authorization := some "Bearer tok-admin",
    body := { username := "dana", email := "other@pixelforge.com", password := "pw",
              role := "developer" } }

/-- The user objects a serialised project carries: the populated creator and members. -/
def ProjectView.userViews (p : ProjectView) : List UserView :=
  p.createdBy.toList ++ p.teamMembers

/-- Every user object a response payload carries: listed users, and the populated
creator, member and uploader references of projects and documents. The user object of a
login response has, by its type, the four fields id, username, email and role only. -/
def Payload.userViews : Payload → List UserView
  | .users us => us
  | .projects ps => ps.flatMap ProjectView.userViews
  | .project p => p.userViews
  | .documents ds => ds.flatMap (fun d => d.uploadedBy.toList)
  | .error _ => []
  | .message _ => []
  | .projectCreated _ _ => []
  | .login _ _ => []
  | .unhandled _ => []

/-- A sample listing of all users by the admin. -/
def sampleListUsersReq : Req := { authorization := some "Bearer tok-admin" }

/-- A sample creation request sent by the project lead `u3`. -/
def sampleLeadCreateReq : Req :=
  { authorization := some "Bearer tok-lead", body := { name := "Nova" } }

/-- A sample listing of the assignable users by the project lead. -/
def sampleAvailableReq : Req := { authorization := some "Bearer tok-lead" }

/-- A sample listing of the projects by the developer `u2`. -/
def sampleDevListReq : Req := { authorization := some "Bearer tok-dev" }

/-- A sample removal of the member `u3` from project `p1` by the admin. -/
def sampleUnassignReq : Req :=
  { authorization := some "Bearer tok-admin",
    params := { projectId := "p1", userId := "u3" } }

/-- A sample assignment of `u3` to project `p1` by the admin. -/
def sampleAssignLeadReq : Req :=
  { authorization := some "Bearer tok-admin", params := { projectId := "p1" },
    body := { userId := "u3" } }

/-- The token a request presents, if it verifies, names a stored user whose stored role is
the role the token carries. -/
def HonestRequest (env : Env) (s : Store) (req : Req) : Prop :=
  ∀ token ident, extractToken req.authorization = some token →
    env.verify token = .ok ident → ∃ u ∈ s.users, u._id = ident.id ∧ u.role = ident.role

/-- The stores the server can reach from `s0` by serving requests whose tokens match the
stored users. No route changes a stored user, so stored roles never change. -/
inductive ReachableHonest (env : Env) (s0 : Store) : Store → Prop where
  | start : ReachableHonest env s0 s0
  | step (s : Store) (fresh : Fresh) (route : Route) (req : Req) :
      ReachableHonest env s0 s → HonestRequest env s req →
      ReachableHonest env s0 (serve env fresh route s req).store

/-- The predicate that the creator of every project is a stored user with role admin. -/
def CreatorsAreAdmins (users : List User) (projects : List Project) : Prop :=
  ∀ p ∈ projects, ∃ u ∈ users, u._id = p.createdBy ∧ u.role = "admin"

/-- The predicate that no two stored users share an id. -/
def UniqueUserIds (users : List User) : Prop :=
  (users.map (fun u => u._id)).Nodup

/-- The sample store without its projects. -/
def sampleEmptyStore : Store := { sampleStore with projects := [] }

/-- A sample listing of the projects by the project lead `u3`. -/
def sampleLeadListReq : Req := { authorization := some "Bearer tok-lead" }

/-- A sample assignment by the admin that names the member `u2` of project `p1` in
upper case. -/
def sampleRespelledAssignReq : Req :=
  { authorization := some "Bearer tok-admin", params := { projectId := "p1" },
    body := { userId := "U2" } }

/-- A sample assignment by the project lead of the id `u404`, which no stored user
carries, to project `p9`. -/
def sampleUnknownAssignReq : Req :=
  { authorization := some "Bearer tok-lead", params := { projectId := "p9" },
    body := { userId := "u404" } }

/-- A sample read of project `p9` by the admin. -/
def sampleAdminGetReq : Req :=
  { authorization := some "Bearer tok-admin", params := { projectId := "p9" } }

/-- A sample deletion by the admin under a text that is not a well-formed id. -/
def sampleMalformedDeleteReq : Req :=
  { authorization := some "Bearer tok-admin", params := { documentId := "not-an-object-id" } }

/-- A sample removal by the admin, from project `p1`, of a text that is not a well-formed
id. -/
def sampleMalformedUnassignReq : Req :=
  { authorization := some "Bearer tok-admin",
    params := { projectId := "p1", userId := "xyz" } }

/-- A sample removal by the admin, from project `p1`, of the upper-case spelling of the
id of its member `u2`. -/
def sampleRespelledUnassignReq : Req :=
  { authorization := some "Bearer tok-admin",
    params := { projectId := "p1", userId := "U2" } }

/-! ## Properties of the middleware -/

/-- A project found by id is an element of the collection carrying that id. -/
theorem Project.findById_some {projects : List Project} {projectId : String} {P : Project}
    (h : Project.findById projects projectId = some P) :
    P ∈ projects ∧ P._id = projectId := by
  unfold Project.findById at h
  exact ⟨List.mem_of_find?_eq_some h, by simpa using List.find?_some h⟩

/-- In a collection with unique ids, looking up the id of an element finds that element. -/
theorem Project.findById_of_mem {projects : List Project} {P : Project}
    (hmem : P ∈ projects) (huniq : (projects.map (fun p => p._id)).Nodup) :
    Project.findById projects P._id = some P := by
  induction projects with
  | nil => cases hmem
  | cons q qs ih =>
    simp only [List.map_cons, List.nodup_cons, List.mem_map, not_exists, not_and] at huniq
    rcases List.mem_cons.mp hmem with rfl | hin
    · simp [Project.findById]
    · have hne : q._id ≠ P._id := fun heq => huniq.1 P hin heq.symm
      have := ih hin huniq.2
      simpa [Project.findById, List.find?_cons, hne] using this

/-- The access expression of `requireProjectAccess`, as a proposition. -/
theorem hasAccess_iff (user : Identity) (P : Project) :
    hasAccess user P = true ↔
      (user.role = "admin" ∨ P.createdBy = user.id ∨ user.id ∈ P.teamMembers) := by
  simp only [hasAccess, Bool.or_eq_true, beq_iff_eq, List.any_eq_true]
  constructor
  · rintro ((h | h) | ⟨m, hm, rfl⟩)
    · exact Or.inl h
    · exact Or.inr (Or.inl h)
    · exact Or.inr (Or.inr hm)
  · rintro (h | h | h)
    · exact Or.inl (Or.inl h)
    · exact Or.inl (Or.inr h)
    · exact Or.inr ⟨user.id, h, rfl⟩

/-- C1: for an authenticated identity and a project `P` stored under the requested id,
`requireProjectAccess` calls `next` (once, sending nothing) exactly when the role is
`admin`, or `P.createdBy` is the identity's id, or the id occurs in `P.teamMembers`;
otherwise it answers 403 `Access denied to this project` and does not call `next`. -/
theorem requireProjectAccess_grants_iff (s : Store) (req : Req) (user : Identity)
    (P : Project) (huser : req.user = some user) (hmem : P ∈ s.projects)
    (huniq : (s.projects.map (fun p => p._id)).Nodup)
    (hid : req.params.projectId = P._id) :
    (((requireProjectAccess s req).nextCalls = 1 ∧ (requireProjectAccess s req).sent = none) ↔
        (user.role = "admin" ∨ P.createdBy = user.id ∨ user.id ∈ P.teamMembers)) ∧
    (¬ (user.role = "admin" ∨ P.createdBy = user.id ∨ user.id ∈ P.teamMembers) →
        (requireProjectAccess s req).sent =
            some ⟨403, .error "Access denied to this project"⟩ ∧
          (requireProjectAccess s req).nextCalls = 0) := by
  have hfind : Project.findById s.projects req.params.projectId = some P := by
    rw [hid]; exact Project.findById_of_mem hmem huniq
  have hacc := hasAccess_iff user P
  by_cases h : hasAccess user P = true
  · have hrun : requireProjectAccess s req = Effect.callNext req s [] := by
      simp [requireProjectAccess, huser, hfind, h]
    rw [hrun]
    exact ⟨⟨fun _ => hacc.mp h, fun _ => ⟨rfl, rfl⟩⟩, fun hn => absurd (hacc.mp h) hn⟩
  · have hrun : requireProjectAccess s req =
        Effect.respond req s 403 (.error "Access denied to this project") [] := by
      simp [requireProjectAccess, huser, hfind, h]
    rw [hrun]
    refine ⟨⟨fun hc => ?_, fun hp => absurd (hacc.mpr hp) h⟩, fun _ => ⟨rfl, rfl⟩⟩
    simp [Effect.respond] at hc

/-- Witness for C1: the developer `u2`, a member of project `p1`, passes the gate. -/
theorem requireProjectAccess_grants_iff_witness :
    ((requireProjectAccess sampleStore
          { params := { projectId := "p1" },
            user := some { id := "u2", username := "dana", role := "developer" } }).nextCalls = 1 ∧
      (requireProjectAccess sampleStore
          { params := { projectId := "p1" },
            user := some { id := "u2", username := "dana", role := "developer" } }).sent = none) ↔
      (("developer" : String) = "admin" ∨ ("u1" : String) = "u2" ∨
        ("u2" : String) ∈ ["u2"]) :=
  (requireProjectAccess_grants_iff sampleStore
    { params := { projectId := "p1" },
      user := some { id := "u2", username := "dana", role := "developer" } }
    { id := "u2", username := "dana", role := "developer" }
    { _id := "p1", name := "Atlas", description := "", deadline := none,
      status := "active", createdBy := "u1", teamMembers := ["u2"], createdAt := 4 }
    rfl (by simp [sampleStore]) (by simp [sampleStore]) rfl).1

/-- The gate of `requireRole` on a request with an attached identity whose role is not
among `roles`. -/
theorem requireRole_reject {roles : List String} {s : Store} {req : Req} {user : Identity}
    (huser : req.user = some user) (hrole : user.role ∉ roles) :
    requireRole roles s req =
      Effect.respond req s 403 (.error "Insufficient permissions") [] := by
  simp [requireRole, huser, hrole]

/-- The gate of `requireRole` on a request with an attached identity whose role is among
`roles`. -/
theorem requireRole_pass {roles : List String} {s : Store} {req : Req} {user : Identity}
    (huser : req.user = some user) (hrole : user.role ∈ roles) :
    requireRole roles s req = Effect.callNext req s [] := by
  simp [requireRole, huser, hrole]

/-- `authenticateToken` on a request whose header yields a non-empty token that verifies. -/
theorem authenticateToken_ok {env : Env} {s : Store} {req : Req} {token : String}
    {user : Identity} (htok : extractToken req.authorization = some token)
    (hne : token ≠ "") (hver : env.verify token = .ok user) :
    authenticateToken env s req = Effect.callNext { req with user := some user } s [token] := by
  simp [authenticateToken, htok, hne, hver]

/-- `authenticateToken` on a request whose header yields a non-empty token that does not
verify. -/
theorem authenticateToken_invalid {env : Env} {s : Store} {req : Req} {token err : String}
    (htok : extractToken req.authorization = some token)
    (hne : token ≠ "") (hver : env.verify token = .error err) :
    authenticateToken env s req =
      Effect.respond req s 403 (.error "Invalid or expired token") [token] := by
  simp [authenticateToken, htok, hne, hver]

/-- A chain that starts with `authenticateToken` and a role gate stops at the role gate
when the verified role is not allowed: 403, handler not run, store untouched. -/
theorem runChain_role_reject (env : Env) (fresh : Fresh)
    (handler : Store → Req → Store × Response) (allow : List String) (rest : List Gate)
    (s : Store) (req : Req) (token : String) (user : Identity)
    (htok : extractToken req.authorization = some token) (hne : token ≠ "")
    (hver : env.verify token = .ok user) (hrole : user.role ∉ allow) :
    runChain env fresh handler (.authenticateToken :: .requireRole allow :: rest) s req =
      { store := s, response := some ⟨403, .error "Insufficient permissions"⟩,
        handlerRan := false, verified := [token] } := by
  have h1 := authenticateToken_ok (s := s) htok hne hver
  have h2 : requireRole allow s { req with user := some user } =
      Effect.respond { req with user := some user } s 403
        (.error "Insufficient permissions") [] :=
    requireRole_reject rfl hrole
  simp [runChain, Gate.run, h1, h2, Effect.callNext, Effect.respond]

/-- Every route that has a role gate has it directly behind `authenticateToken`. -/
theorem Route.gates_of_role {route : Route} {allow : List String}
    (h : Gate.requireRole allow ∈ route.gates) :
    ∃ rest, route.gates = .authenticateToken :: .requireRole allow :: rest := by
  cases route <;> simp [Route.gates] at h ⊢ <;> first | exact h | exact h.symm

/-- C2: on every route guarded by `requireRole(allow)`, a request whose token verifies to
a role outside `allow` is answered 403 `Insufficient permissions`; the route handler does
not run and the store (users, projects, documents, files) is unchanged. The body is the
fixed error message, so it carries no stored data. -/
theorem role_gated_route_rejects (env : Env) (fresh : Fresh) (route : Route)
    (allow : List String) (s : Store) (req : Req) (token : String) (user : Identity)
    (hgate : Gate.requireRole allow ∈ route.gates)
    (htok : extractToken req.authorization = some token) (hne : token ≠ "")
    (hver : env.verify token = .ok user) (hrole : user.role ∉ allow) :
    (serve env fresh route s req).response =
        some ⟨403, .error "Insufficient permissions"⟩ ∧
      (serve env fresh route s req).handlerRan = false ∧
      (serve env fresh route s req).store = s := by
  obtain ⟨rest, hrest⟩ := Route.gates_of_role hgate
  have h := runChain_role_reject env fresh (route.handler env fresh) allow rest s req token
    user htok hne hver hrole
  simp [serve, hrest, h]

/-- Witness for C2: a developer asks for the user list. -/
theorem role_gated_route_rejects_witness :
    (serve sampleEnv sampleFresh .listUsers sampleStore
        { authorization := some "Bearer tok-dev" }).response =
        some ⟨403, .error "Insufficient permissions"⟩ ∧
      (serve sampleEnv sampleFresh .listUsers sampleStore
        { authorization := some "Bearer tok-dev" }).handlerRan = false ∧
      (serve sampleEnv sampleFresh .listUsers sampleStore
        { authorization := some "Bearer tok-dev" }).store = sampleStore :=
  role_gated_route_rejects sampleEnv sampleFresh .listUsers ["admin"] sampleStore
    { authorization := some "Bearer tok-dev" } "tok-dev"
    { id := "u2", username := "dana", role := "developer" }
    (by simp [Route.gates]) (by decide) (by decide) (by simp [sampleEnv]) (by decide)

/-- C3: on a request with an attached identity, the gate of `requireRole(roles)` answers
403 `Insufficient permissions` exactly when the role is not in `roles`, and otherwise
calls `next` once and sends nothing; what it sends and whether it calls `next` depend on
the role and `roles` only. -/
theorem requireRole_decides_by_role (roles : List String) (s : Store) (req : Req)
    (user : Identity) (huser : req.user = some user) :
    ((requireRole roles s req).sent = some ⟨403, .error "Insufficient permissions"⟩ ↔
        user.role ∉ roles) ∧
    (user.role ∈ roles →
        (requireRole roles s req).nextCalls = 1 ∧ (requireRole roles s req).sent = none) ∧
    (user.role ∉ roles → (requireRole roles s req).nextCalls = 0) ∧
    (∀ (s2 : Store) (req2 : Req) (user2 : Identity), req2.user = some user2 →
        user2.role = user.role →
        (requireRole roles s2 req2).sent = (requireRole roles s req).sent ∧
          (requireRole roles s2 req2).nextCalls = (requireRole roles s req).nextCalls) := by
  by_cases h : user.role ∈ roles
  · have hrun := requireRole_pass (s := s) huser h
    refine ⟨?_, fun _ => ?_, fun hn => absurd h hn, fun s2 req2 user2 hu2 hr2 => ?_⟩
    · rw [hrun]; simp [Effect.callNext, h]
    · rw [hrun]; exact ⟨rfl, rfl⟩
    · rw [hrun, requireRole_pass (s := s2) hu2 (hr2 ▸ h)]; exact ⟨rfl, rfl⟩
  · have hrun := requireRole_reject (s := s) huser h
    refine ⟨?_, fun hp => absurd hp h, fun _ => ?_, fun s2 req2 user2 hu2 hr2 => ?_⟩
    · rw [hrun]; simp [Effect.respond, h]
    · rw [hrun]; rfl
    · rw [hrun, requireRole_reject (s := s2) hu2 (hr2 ▸ h)]; exact ⟨rfl, rfl⟩

/-- Witness for C3: a developer at the gate `requireRole(['admin'])`. -/
theorem requireRole_decides_by_role_witness :
    (requireRole ["admin"] sampleStore
        { user := some { id := "u2", username := "dana", role := "developer" } }).sent =
        some ⟨403, .error "Insufficient permissions"⟩ ↔
      ("developer" : String) ∉ ["admin"] :=
  (requireRole_decides_by_role ["admin"] sampleStore
    { user := some { id := "u2", username := "dana", role := "developer" } }
    { id := "u2", username := "dana", role := "developer" } rfl).1

/-- C4: a request without an Authorization header is rejected by `authenticateToken` with
status 401 (the authentication-required answer, whose message is `Access token
required`); no token is handed to verification, the request object, and so `req.user`,
is left as it was, and `next` is not called. -/
theorem authenticateToken_missing_header (env : Env) (s : Store) (req : Req)
    (hnone : req.authorization = none) :
    (authenticateToken env s req).sent = some ⟨401, .error "Access token required"⟩ ∧
      (authenticateToken env s req).verified = [] ∧
      (authenticateToken env s req).req = req ∧
      (authenticateToken env s req).nextCalls = 0 := by
  simp [authenticateToken, extractToken, hnone, Effect.respond]

/-- Witness for C4: the request without any header. -/
theorem authenticateToken_missing_header_witness :
    (authenticateToken sampleEnv sampleStore {}).sent =
        some ⟨401, .error "Access token required"⟩ ∧
      (authenticateToken sampleEnv sampleStore {}).verified = [] ∧
      (authenticateToken sampleEnv sampleStore {}).req = {} ∧
      (authenticateToken sampleEnv sampleStore {}).nextCalls = 0 :=
  authenticateToken_missing_header sampleEnv sampleStore {} rfl

/-- C5: on a request carrying a token, if verification fails `authenticateToken` answers
403 `Invalid or expired token`, leaves the request object (and `req.user`) as it was and
does not call `next`; if verification succeeds it sets `req.user` to the decoded
identity, sends nothing and calls `next` once. -/
theorem authenticateToken_follows_verify (env : Env) (s : Store) (req : Req)
    (token : String) (htok : extractToken req.authorization = some token)
    (hne : token ≠ "") :
    (∀ err, env.verify token = .error err →
        (authenticateToken env s req).sent =
            some ⟨403, .error "Invalid or expired token"⟩ ∧
          (authenticateToken env s req).req = req ∧
          (authenticateToken env s req).nextCalls = 0) ∧
    (∀ user, env.verify token = .ok user →
        (authenticateToken env s req).req = { req with user := some user } ∧
          (authenticateToken env s req).sent = none ∧
          (authenticateToken env s req).nextCalls = 1) := by
  constructor
  · intro err hver
    rw [authenticateToken_invalid htok hne hver]
    exact ⟨rfl, rfl, rfl⟩
  · intro user hver
    rw [authenticateToken_ok htok hne hver]
    exact ⟨rfl, rfl, rfl⟩

/-- Witness for C5: the admin token is verified and its identity attached. -/
theorem authenticateToken_follows_verify_witness :
    (authenticateToken sampleEnv sampleStore
        { authorization := some "Bearer tok-admin" }).req =
        { authorization := some "Bearer tok-admin",
          user := some { id := "u1", username := "admin", role := "admin" } } ∧
      (authenticateToken sampleEnv sampleStore
        { authorization := some "Bearer tok-admin" }).sent = none ∧
      (authenticateToken sampleEnv sampleStore
        { authorization := some "Bearer tok-admin" }).nextCalls = 1 :=
  (authenticateToken_follows_verify sampleEnv sampleStore
    { authorization := some "Bearer tok-admin" } "tok-admin" (by decide) (by decide)).2
    { id := "u1", username := "admin", role := "admin" } (by simp [sampleEnv])

/-! ## Properties of the login route -/

/-- `User.findOne` finds nothing exactly when no stored user has the username. -/
theorem User.findOne_eq_none {users : List User} {username : String} :
    User.findOne users username = none ↔ ∀ u ∈ users, u.username ≠ username := by
  simp [User.findOne, List.find?_eq_none]

/-- A user found by `User.findOne` is stored and has the username. -/
theorem User.findOne_some {users : List User} {username : String} {u : User}
    (h : User.findOne users username = some u) : u ∈ users ∧ u.username = username := by
  unfold User.findOne at h
  exact ⟨List.mem_of_find?_eq_some h, by simpa using List.find?_some h⟩

/-- With unique usernames, looking up the username of a stored user finds that user. -/
theorem User.findOne_of_mem {users : List User} {u : User} (hmem : u ∈ users)
    (huniq : (users.map (fun v => v.username)).Nodup) :
    User.findOne users u.username = some u := by
  induction users with
  | nil => cases hmem
  | cons q qs ih =>
    simp only [List.map_cons, List.nodup_cons, List.mem_map, not_exists, not_and] at huniq
    rcases List.mem_cons.mp hmem with rfl | hin
    · simp [User.findOne]
    · have hne : q.username ≠ u.username := fun heq => huniq.1 u hin heq.symm
      have := ih hin huniq.2
      simpa [User.findOne, List.find?_cons, hne] using this

/-- The login route has no middleware: its response is the one of the handler. -/
theorem serve_login (env : Env) (fresh : Fresh) (s : Store) (req : Req) :
    serve env fresh .login s req =
      { store := (loginHandler env s req).1, response := some (loginHandler env s req).2,
        handlerRan := true, verified := [] } := by
  simp [serve, Route.gates, Route.handler, runChain]

/-- C6: a login whose username matches no stored user and a login whose username matches
a stored user but whose password fails the comparison get the same response, status 401
with body `Invalid credentials`; that response carries no token. -/
theorem login_failures_indistinguishable (env : Env) (fresh1 fresh2 : Fresh) (s : Store)
    (req1 req2 : Req)
    (hunknown : ∀ u ∈ s.users, u.username ≠ req1.body.username)
    (hknown : ∃ u ∈ s.users, u.username = req2.body.username)
    (hwrong : ∀ u ∈ s.users, u.username = req2.body.username →
      env.comparePassword u req2.body.password = false) :
    (serve env fresh1 .login s req1).response = (serve env fresh2 .login s req2).response ∧
      (serve env fresh1 .login s req1).response =
        some ⟨401, .error "Invalid credentials"⟩ ∧
      (∀ token user, (serve env fresh2 .login s req2).response ≠
        some ⟨200, .login token user⟩) := by
  have h1 : (loginHandler env s req1).2 = ⟨401, .error "Invalid credentials"⟩ := by
    simp [loginHandler, User.findOne_eq_none.mpr hunknown]
  have h2 : (loginHandler env s req2).2 = ⟨401, .error "Invalid credentials"⟩ := by
    cases hfind : User.findOne s.users req2.body.username with
    | none =>
      obtain ⟨u, hu, hname⟩ := hknown
      exact absurd hname (User.findOne_eq_none.mp hfind u hu)
    | some u =>
      obtain ⟨hu, hname⟩ := User.findOne_some hfind
      simp [loginHandler, hfind, hwrong u hu hname]
  rw [serve_login, serve_login, h1, h2]
  simp

/-- Witness for C6: an unknown username against a wrong password for `admin`. -/
theorem login_failures_indistinguishable_witness :
    (serve sampleEnv sampleFresh .login sampleStore
        { body := { username := "nobody", password := "admin123" } }).response =
      (serve sampleEnv sampleFresh .login sampleStore
        { body := { username := "admin", password := "guess" } }).response :=
  (login_failures_indistinguishable sampleEnv sampleFresh sampleFresh sampleStore
    { body := { username := "nobody", password := "admin123" } }
    { body := { username := "admin", password := "guess" } }
    (by simp [sampleStore]) (by simp [sampleStore]) (by simp [sampleStore, sampleEnv])).1

/-- C7: a login with the username of a stored user `u` and a password that passes the
comparison signs the payload with id, username and role of `u` under `expiresIn: 24h` and
answers 200 with that token and a user object of id, username, email and role of `u`; the
store is unchanged. -/
theorem login_success_token (env : Env) (fresh : Fresh) (s : Store) (req : Req) (u : User)
    (hmem : u ∈ s.users) (huniq : (s.users.map (fun v => v.username)).Nodup)
    (hname : req.body.username = u.username)
    (hpass : env.comparePassword u req.body.password = true) :
    (serve env fresh .login s req).response =
        some ⟨200, .login
          (env.sign { id := u._id, username := u.username, role := u.role } "24h")
          { id := u._id, username := u.username, email := u.email, role := u.role }⟩ ∧
      (serve env fresh .login s req).store = s := by
  have hfind : User.findOne s.users req.body.username = some u := by
    rw [hname]; exact User.findOne_of_mem hmem huniq
  rw [serve_login]
  simp [loginHandler, hfind, hpass]

/-- Witness for C7: the seeded administrator logs in. -/
theorem login_success_token_witness :
    (serve sampleEnv sampleFresh .login sampleStore
        { body := { username := "admin", password := "admin123" } }).response =
      some ⟨200, .login
        (sampleEnv.sign { id := "u1", username := "admin", role := "admin" } "24h")
        { id := "u1", username := "admin", email := "admin@pixelforge.com",
          role := "admin" }⟩ :=
  (login_success_token sampleEnv sampleFresh sampleStore
    { body := { username := "admin", password := "admin123" } }
    { _id := "u1", username := "admin", email := "admin@pixelforge.com",
      password := "admin123", role := "admin", createdAt := 1 }
    (by simp [sampleStore]) (by simp [sampleStore]) rfl (by simp [sampleEnv])).1

/-! ## Properties of the assignment routes -/

/-- A chain of `authenticateToken` and a role gate lets a verified, allowed caller through
to the handler, which sees the decoded identity in `req.user`. -/
theorem runChain_role_pass (env : Env) (fresh : Fresh)
    (handler : Store → Req → Store × Response) (allow : List String)
    (s : Store) (req : Req) (token : String) (user : Identity)
    (htok : extractToken req.authorization = some token) (hne : token ≠ "")
    (hver : env.verify token = .ok user) (hrole : user.role ∈ allow) :
    runChain env fresh handler [.authenticateToken, .requireRole allow] s req =
      { store := (handler s { req with user := some user }).1,
        response := some (handler s { req with user := some user }).2,
        handlerRan := true, verified := [token] } := by
  have h1 := authenticateToken_ok (s := s) htok hne hver
  have h2 : requireRole allow s { req with user := some user } =
      Effect.callNext { req with user := some user } s [] :=
    requireRole_pass rfl hrole
  simp [runChain, Gate.run, h1, h2, Effect.callNext]

/-- Membership in a collection after `updateFirst`. -/
theorem mem_updateFirst {α : Type} {p : α → Bool} {f : α → α} {l : List α} {x : α}
    (h : x ∈ updateFirst p f l) : x ∈ l ∨ ∃ y ∈ l, p y = true ∧ x = f y := by
  induction l with
  | nil => simp [updateFirst] at h
  | cons a as ih =>
    unfold updateFirst at h
    by_cases hp : p a = true
    · rw [if_pos hp] at h
      rcases List.mem_cons.mp h with rfl | hx
      · exact Or.inr ⟨a, List.mem_cons_self _ _, hp, rfl⟩
      · exact Or.inl (List.mem_cons_of_mem _ hx)
    · rw [if_neg hp] at h
      rcases List.mem_cons.mp h with rfl | hx
      · exact Or.inl (List.mem_cons_self _ _)
      · rcases ih hx with hin | ⟨y, hy, hpy, rfl⟩
        · exact Or.inl (List.mem_cons_of_mem _ hin)
        · exact Or.inr ⟨y, List.mem_cons_of_mem _ hy, hpy, rfl⟩

/-- C8: assigning a user id that is already in `P.teamMembers`, by a caller whose role is
admin or project_lead, is answered 400 `User is already assigned to this project` and
leaves the whole store, hence the member list of `P` and of every other project,
unchanged. -/
theorem assign_existing_member_rejected (env : Env) (fresh : Fresh) (s : Store) (req : Req)
    (token : String) (caller : Identity) (P : Project)
    (htok : extractToken req.authorization = some token) (hne : token ≠ "")
    (hver : env.verify token = .ok caller)
    (hrole : caller.role = "admin" ∨ caller.role = "project_lead")
    (hmem : P ∈ s.projects) (huniq : (s.projects.map (fun p => p._id)).Nodup)
    (hid : req.params.projectId = P._id) (hu : req.body.userId ∈ P.teamMembers) :
    (serve env fresh .assign s req).response =
        some ⟨400, .error "User is already assigned to this project"⟩ ∧
      (serve env fresh .assign s req).store = s := by
  have hallow : caller.role ∈ ["admin", "project_lead"] := by
    rcases hrole with h | h <;> simp [h]
  have hfind : Project.findById s.projects req.params.projectId = some P := by
    rw [hid]; exact Project.findById_of_mem hmem huniq
  have hrun := runChain_role_pass env fresh (assignHandler env) ["admin", "project_lead"] s
    req token caller htok hne hver hallow
  simp [serve, Route.gates, Route.handler, hrun, assignHandler, hfind, hu]

/-- Witness for C8: the admin assigns `u2` to project `p1` a second time. -/
theorem assign_existing_member_rejected_witness :
    (serve sampleEnv sampleFresh .assign sampleStore
        { authorization := some "Bearer tok-admin", params := { projectId := "p1" },
          body := { userId := "u2" } }).response =
        some ⟨400, .error "User is already assigned to this project"⟩ ∧
      (serve sampleEnv sampleFresh .assign sampleStore
        { authorization := some "Bearer tok-admin", params := { projectId := "p1" },
          body := { userId := "u2" } }).store = sampleStore :=
  assign_existing_member_rejected sampleEnv sampleFresh sampleStore
    { authorization := some "Bearer tok-admin", params := { projectId := "p1" },
      body := { userId := "u2" } } "tok-admin"
    { id := "u1", username := "admin", role := "admin" }
    { _id := "p1", name := "Atlas", description := "", deadline := none,
      status := "active", createdBy := "u1", teamMembers := ["u2"], createdAt := 4 }
    (by decide) (by decide) (by simp [sampleEnv]) (Or.inl rfl)
    (by simp [sampleStore]) (by simp [sampleStore]) rfl (by simp)

/-! ## The member lists hold no id twice -/

/-- No middleware touches the project collection. -/
theorem gate_run_projects (env : Env) (fresh : Fresh) (g : Gate) (s : Store) (req : Req) :
    (g.run env fresh s req).store.projects = s.projects := by
  cases g with
  | authenticateToken =>
    simp only [Gate.run, authenticateToken]
    split
    · rfl
    · split
      · rfl
      · split <;> rfl
  | requireRole roles =>
    simp only [Gate.run, requireRole]
    split
    · rfl
    · split <;> rfl
  | requireProjectAccess =>
    simp only [Gate.run, requireProjectAccess]
    split
    · rfl
    · split
      · rfl
      · split <;> rfl
  | uploadSingle =>
    simp only [Gate.run, uploadSingle]
    split
    · rfl
    · split
      · rfl
      · split
        · rfl
        · split <;> rfl

/-- A project made by `Project.create` has no team members, and the collection grows by
exactly that project. -/
theorem Project.create_ok {fresh : Fresh} {projects projects2 : List Project} {b : ReqBody}
    {createdBy : String} {project : Project}
    (h : Project.create fresh projects b createdBy = .ok (project, projects2)) :
    project.teamMembers = [] ∧ project._id = fresh.oid ∧ project.createdBy = createdBy ∧
      project.status = "active" ∧ projects2 = projects ++ [project] ∧
      (∀ q ∈ projects, q._id ≠ fresh.oid) := by
  unfold Project.create at h
  simp only at h
  split at h
  · cases h
  · split at h
    · cases h
    · rename_i hdup
      simp only [Except.ok.injEq, Prod.mk.injEq] at h
      obtain ⟨h1, h2⟩ := h
      subst h1
      refine ⟨rfl, rfl, rfl, rfl, h2.symm, ?_⟩
      intro q hq heq
      exact hdup (List.any_eq_true.mpr ⟨q, hq, by simp [heq]⟩)

/-- C9: evaluation of an assignment that names a member in another spelling. In the sample
store no project lists a user id twice, and `u2` is a member of project `p1`. The admin
assigns `U2`, the upper-case spelling of that id: the text is not among the stored
members, so the duplicate test does not fire, the cast gives the id `u2`, the answer is
201, and `p1` is stored with `u2` twice: a store reachable from the sample store in which
a project lists a user id twice. -/
theorem assign_respelled_member_stored_twice :
    NoDuplicateMembers sampleStore ∧
      sampleEnv.castObjectId "U2" = some "u2" ∧
      Reachable sampleEnv sampleStore
        (serve sampleEnv sampleFresh .assign sampleStore sampleRespelledAssignReq).store ∧
      (serve sampleEnv sampleFresh .assign sampleStore sampleRespelledAssignReq).response =
        some ⟨201, .message "User assigned to project successfully"⟩ ∧
      (Project.findById
        (serve sampleEnv sampleFresh .assign sampleStore sampleRespelledAssignReq).store.projects
        "p1").map (fun p => p.teamMembers) = some ["u2", "u2"] ∧
      ¬ NoDuplicateMembers
        (serve sampleEnv sampleFresh .assign sampleStore sampleRespelledAssignReq).store := by
  have hstore : (serve sampleEnv sampleFresh .assign sampleStore
      sampleRespelledAssignReq).store.projects =
      [ { _id := "p1", name := "Atlas", description := "", deadline := none,
          status := "active", createdBy := "u1", teamMembers := ["u2", "u2"],
          createdAt := 4 },
        { _id := "p2", name := "Borealis", description := "", deadline := none,
          status := "active", createdBy := "u3", teamMembers := [], createdAt := 5 } ] := by
    decide
  refine ⟨?_, by decide, Reachable.step _ _ _ _ Reachable.start, by decide, ?_, ?_⟩
  · simp [NoDuplicateMembers, sampleStore]
  · rw [hstore]; decide
  · intro h
    have := h _ (by rw [hstore]; exact List.mem_cons_self _ _)
    revert this
    decide

/-! ## Creating a project, assigning a member, reading the project -/

/-- Looking up an id that only the appended project carries. -/
theorem Project.findById_append_new {projects : List Project} {P : Project}
    (hnew : ∀ q ∈ projects, q._id ≠ P._id) :
    Project.findById (projects ++ [P]) P._id = some P := by
  have hnone : List.find? (fun p => p._id == P._id) projects = none := by
    simp only [List.find?_eq_none, beq_iff_eq]
    exact hnew
  simp [Project.findById, List.find?_append, hnone]

/-- Lookup by id after an update addressed to `pid` that keeps the id. -/
theorem Project.findById_updateFirst_same {f : Project → Project} {pid : String}
    (hf : ∀ p, p._id = pid → (f p)._id = pid) (projects : List Project) :
    Project.findById (updateFirst (fun p => p._id == pid) f projects) pid =
      (Project.findById projects pid).map f := by
  induction projects with
  | nil => simp [updateFirst, Project.findById]
  | cons q qs ih =>
    by_cases hq : q._id = pid
    · simp [updateFirst, Project.findById, hq, hf q hq]
    · have ih2 := ih
      simp only [Project.findById] at ih2
      simp [updateFirst, Project.findById, hq, ih2]

/-- The projects other than `pid` are untouched by an update addressed to `pid` that keeps
the id. -/
theorem filter_ne_updateFirst {f : Project → Project} {pid : String}
    (hf : ∀ p, p._id = pid → (f p)._id = pid) (projects : List Project) :
    (updateFirst (fun p => p._id == pid) f projects).filter (fun p => p._id != pid) =
      projects.filter (fun p => p._id != pid) := by
  induction projects with
  | nil => simp [updateFirst]
  | cons q qs ih =>
    by_cases hq : q._id = pid
    · simp [updateFirst, hq, hf q hq]
    · simp [updateFirst, hq, ih]

/-- A chain of `authenticateToken` and `requireProjectAccess` lets a verified caller with
access to the requested project through to the handler. -/
theorem runChain_access_pass (env : Env) (fresh : Fresh)
    (handler : Store → Req → Store × Response) (s : Store) (req : Req) (token : String)
    (user : Identity) (P : Project)
    (htok : extractToken req.authorization = some token) (hne : token ≠ "")
    (hver : env.verify token = .ok user)
    (hfind : Project.findById s.projects req.params.projectId = some P)
    (hacc : hasAccess user P = true) :
    runChain env fresh handler [.authenticateToken, .requireProjectAccess] s req =
      { store := (handler s { req with user := some user }).1,
        response := some (handler s { req with user := some user }).2,
        handlerRan := true, verified := [token] } := by
  have h1 := authenticateToken_ok (s := s) htok hne hver
  have h2 : requireProjectAccess s { req with user := some user } =
      Effect.callNext { req with user := some user } s [] := by
    simp [requireProjectAccess, hfind, hacc]
  simp [runChain, Gate.run, h1, h2, Effect.callNext]

/-- What a 201 answer of the project-creation handler tells about the store. -/
theorem createProjectHandler_created {fresh : Fresh} {s : Store} {req : Req}
    {msg pid : String}
    (h : (createProjectHandler fresh s req).2 = ⟨201, .projectCreated msg pid⟩) :
    ∃ P : Project, P._id = pid ∧ P.teamMembers = [] ∧ (∀ q ∈ s.projects, q._id ≠ pid) ∧
      (createProjectHandler fresh s req).1 = { s with projects := s.projects ++ [P] } := by
  cases huser : req.user with
  | none => simp [createProjectHandler, huser, serverError] at h
  | some user =>
    cases hc : Project.create fresh s.projects req.body user.id with
    | error e => simp [createProjectHandler, huser, hc, serverError] at h
    | ok out =>
      obtain ⟨project, projects⟩ := out
      obtain ⟨hm, hid, -, -, hp, hnew⟩ := Project.create_ok hc
      simp only [createProjectHandler, huser, hc, Response.mk.injEq,
        Payload.projectCreated.injEq, true_and] at h
      refine ⟨project, h.2, hm, ?_, ?_⟩
      · rw [← h.2, hid]; exact hnew
      · simp [createProjectHandler, huser, hc, hp]

/-- Populating a one-element reference array whose user exists gives one entry, with
that id. -/
theorem populateMany_singleton (users : List User) (sel : Selection) {u : String}
    (h : ∃ usr ∈ users, usr._id = u) :
    ∃ v : UserView, populateMany users sel [u] = [v] ∧ v._id = u := by
  cases hfind : users.find? (fun x => x._id == u) with
  | none =>
    obtain ⟨usr, hmem, hid⟩ := h
    have := List.find?_eq_none.mp hfind usr hmem
    simp [hid] at this
  | some found =>
    have hid : found._id = u := by simpa using List.find?_some hfind
    exact ⟨User.select sel found, by simp [populateMany, populateOne, hfind],
      by simp [User.select, hid]⟩

/-- C10 (as amended): an admin creates a project (answer 201 with id `pid`); a caller with
role admin or project_lead assigns to it a user id that is, in some spelling, the id of
a stored user. Then the assignment succeeds, the member lists returned by
`GET /api/projects/:projectId` and by `GET /api/projects/:projectId/assignments` each
hold exactly one entry with the id of that user, every member the project had before the
assignment is still a member, and the projects other than `pid` are the same as before
the assignment. -/
theorem assigned_member_listed_once (env : Env) (f1 f2 f3 f4 : Fresh) (s0 : Store)
    (createReq assignReq getReq : Req) (tokA tokB tokC : String)
    (admin assigner caller : Identity) (usr : User) (msg pid : String)
    (hA : extractToken createReq.authorization = some tokA) (hAne : tokA ≠ "")
    (hAver : env.verify tokA = .ok admin) (hArole : admin.role = "admin")
    (hcreated : (serve env f1 .createProject s0 createReq).response =
      some ⟨201, .projectCreated msg pid⟩)
    (hB : extractToken assignReq.authorization = some tokB) (hBne : tokB ≠ "")
    (hBver : env.verify tokB = .ok assigner)
    (hBrole : assigner.role = "admin" ∨ assigner.role = "project_lead")
    (hBpid : assignReq.params.projectId = pid)
    (husr : usr ∈ s0.users) (hcast : env.castObjectId assignReq.body.userId = some usr._id)
    (hC : extractToken getReq.authorization = some tokC) (hCne : tokC ≠ "")
    (hCver : env.verify tokC = .ok caller)
    (hCacc : caller.role = "admin" ∨ caller.id = usr._id)
    (hCpid : getReq.params.projectId = pid) :
    ∃ (P1 P2 : Project) (view : ProjectView) (members : List UserView),
      Project.findById (serve env f1 .createProject s0 createReq).store.projects pid =
        some P1 ∧
      (serve env f2 .assign (serve env f1 .createProject s0 createReq).store
        assignReq).response =
        some ⟨201, .message "User assigned to project successfully"⟩ ∧
      Project.findById (serve env f2 .assign (serve env f1 .createProject s0 createReq).store
        assignReq).store.projects pid = some P2 ∧
      (serve env f3 .projectDetails
        (serve env f2 .assign (serve env f1 .createProject s0 createReq).store
          assignReq).store getReq).response = some ⟨200, .project view⟩ ∧
      (view.teamMembers.filter (fun m => m._id == usr._id)).length = 1 ∧
      (serve env f4 .listAssignments
        (serve env f2 .assign (serve env f1 .createProject s0 createReq).store
          assignReq).store getReq).response = some ⟨200, .users members⟩ ∧
      (members.filter (fun m => m._id == usr._id)).length = 1 ∧
      (∀ m ∈ P1.teamMembers, m ∈ P2.teamMembers) ∧
      (serve env f2 .assign (serve env f1 .createProject s0 createReq).store
        assignReq).store.projects.filter (fun p => p._id != pid) =
        (serve env f1 .createProject s0 createReq).store.projects.filter
          (fun p => p._id != pid) := by
  -- the creation
  have hrun1 := runChain_role_pass env f1 (createProjectHandler f1) ["admin"] s0 createReq
    tokA admin hA hAne hAver (by simp [hArole])
  have hserve1 : serve env f1 .createProject s0 createReq =
      { store := (createProjectHandler f1 s0 { createReq with user := some admin }).1,
        response := some (createProjectHandler f1 s0 { createReq with user := some admin }).2,
        handlerRan := true, verified := [tokA] } := by
    simp [serve, Route.gates, Route.handler, hrun1]
  rw [hserve1] at hcreated
  simp only [Option.some.injEq] at hcreated
  obtain ⟨P, hPid, hPmem, hnew, hstore1⟩ := createProjectHandler_created hcreated
  obtain ⟨s1, hs1def⟩ : ∃ x : Store, x = { s0 with projects := s0.projects ++ [P] } :=
    ⟨_, rfl⟩
  have hs1 : (serve env f1 .createProject s0 createReq).store = s1 := by
    rw [hserve1, hs1def]; exact hstore1
  rw [hs1]
  have hs1users : s1.users = s0.users := by rw [hs1def]
  have hfind1 : Project.findById s1.projects pid = some P := by
    rw [hs1def, ← hPid]; exact Project.findById_append_new (by rw [hPid]; exact hnew)
  -- the assignment
  obtain ⟨P2, hP2def⟩ : ∃ x : Project,
      x = { P with teamMembers := P.teamMembers ++ [usr._id] } := ⟨_, rfl⟩
  have hP2id : P2._id = pid := by rw [hP2def]; exact hPid
  have hP2mem : P2.teamMembers = [usr._id] := by rw [hP2def, hPmem]; rfl
  obtain ⟨s2, hs2def⟩ : ∃ x : Store, x =
      { s1 with projects := updateFirst (fun p => p._id == pid) (fun _ => P2) s1.projects } :=
    ⟨_, rfl⟩
  have hs2users : s2.users = s0.users := by rw [hs2def]; exact hs1users
  have hallow : assigner.role ∈ ["admin", "project_lead"] := by
    rcases hBrole with h | h <;> simp [h]
  have hrun2 := runChain_role_pass env f2 (assignHandler env) ["admin", "project_lead"]
    s1 assignReq tokB assigner hB hBne hBver hallow
  have hkeep : ∀ p : Project, p._id = pid → ((fun _ => P2) p : Project)._id = pid :=
    fun _ _ => hP2id
  have hassign : assignHandler env s1 { assignReq with user := some assigner } =
      (s2, ⟨201, .message "User assigned to project successfully"⟩) := by
    simp [assignHandler, hBpid, hfind1, hPmem, hcast, hs2def, hP2def]
  have hserve2 : serve env f2 .assign s1 assignReq =
      { store := s2,
        response := some ⟨201, .message "User assigned to project successfully"⟩,
        handlerRan := true, verified := [tokB] } := by
    simp [serve, Route.gates, Route.handler, hrun2, hassign]
  rw [hserve2]
  have hfind2 : Project.findById s2.projects pid = some P2 := by
    rw [hs2def]
    show Project.findById (updateFirst (fun p => p._id == pid) (fun _ => P2) s1.projects)
      pid = some P2
    rw [Project.findById_updateFirst_same hkeep, hfind1]; rfl
  -- the two reads
  have hacc : hasAccess caller P2 = true := by
    rw [hasAccess_iff]
    rcases hCacc with h | h
    · exact Or.inl h
    · exact Or.inr (Or.inr (by simp [hP2mem, h]))
  have hfind3 : Project.findById s2.projects getReq.params.projectId = some P2 := by
    rw [hCpid]; exact hfind2
  obtain ⟨v, hv, hvid⟩ := populateMany_singleton s0.users
    (.inclusive ["username", "email", "role"]) ⟨usr, husr, rfl⟩
  have hrun3 := fun (fresh : Fresh) (handler : Store → Req → Store × Response) =>
    runChain_access_pass env fresh handler s2 getReq tokC caller P2 hC hCne hCver hfind3 hacc
  refine ⟨P, P2,
    Project.view s0.users (.inclusive ["username"])
      (.inclusive ["username", "email", "role"]) P2,
    [v], hfind1, rfl, hfind2, ?_, ?_, ?_, ?_, ?_, ?_⟩
  · simp [serve, Route.gates, Route.handler, hrun3 f3 projectDetailsHandler,
      projectDetailsHandler, hfind3, hs2users]
  · simp [Project.view, hP2mem, hv, hvid]
  · simp [serve, Route.gates, Route.handler, hrun3 f4 listAssignmentsHandler,
      listAssignmentsHandler, hfind3, hP2mem, hv, hs2users]
  · simp [hvid]
  · intro m hm
    simp [hPmem] at hm
  · rw [hs2def]
    exact filter_ne_updateFirst hkeep _

/-- Witness for C10: in the sample store the admin creates project `p9`, the project lead
assigns the developer `u2`, and `u2` reads the project. -/
theorem assigned_member_listed_once_witness :
    (serve sampleEnv sampleFresh .createProject sampleStore sampleCreateReq).response =
        some ⟨201, .projectCreated "Project created successfully" "p9"⟩ ∧
    ∃ (P1 P2 : Project) (view : ProjectView) (members : List UserView),
      Project.findById
        (serve sampleEnv sampleFresh .createProject sampleStore sampleCreateReq).store.projects
        "p9" = some P1 ∧
      (serve sampleEnv sampleFresh .assign
        (serve sampleEnv sampleFresh .createProject sampleStore sampleCreateReq).store
        sampleAssignReq).response =
        some ⟨201, .message "User assigned to project successfully"⟩ ∧
      Project.findById (serve sampleEnv sampleFresh .assign
        (serve sampleEnv sampleFresh .createProject sampleStore sampleCreateReq).store
        sampleAssignReq).store.projects "p9" = some P2 ∧
      (serve sampleEnv sampleFresh .projectDetails
        (serve sampleEnv sampleFresh .assign
          (serve sampleEnv sampleFresh .createProject sampleStore sampleCreateReq).store
          sampleAssignReq).store sampleGetReq).response = some ⟨200, .project view⟩ ∧
      (view.teamMembers.filter (fun m => m._id == "u2")).length = 1 ∧
      (serve sampleEnv sampleFresh .listAssignments
        (serve sampleEnv sampleFresh .assign
          (serve sampleEnv sampleFresh .createProject sampleStore sampleCreateReq).store
          sampleAssignReq).store sampleGetReq).response = some ⟨200, .users members⟩ ∧
      (members.filter (fun m => m._id == "u2")).length = 1 ∧
      (∀ m ∈ P1.teamMembers, m ∈ P2.teamMembers) ∧
      (serve sampleEnv sampleFresh .assign
        (serve sampleEnv sampleFresh .createProject sampleStore sampleCreateReq).store
        sampleAssignReq).store.projects.filter (fun p => p._id != "p9") =
        (serve sampleEnv sampleFresh .createProject sampleStore
          sampleCreateReq).store.projects.filter (fun p => p._id != "p9") :=
  ⟨by decide,
    assigned_member_listed_once sampleEnv sampleFresh sampleFresh sampleFresh sampleFresh
      sampleStore sampleCreateReq sampleAssignReq sampleGetReq "tok-admin" "tok-lead"
      "tok-dev" { id := "u1", username := "admin", role := "admin" }
      { id := "u3", username := "lee", role := "project_lead" }
      { id := "u2", username := "dana", role := "developer" }
      { _id := "u2", username := "dana", email := "dana@pixelforge.com",
        password := "secret", role := "developer", createdAt := 2 }
      "Project created successfully" "p9"
      (by decide) (by decide) (by simp [sampleEnv]) rfl (by decide)
      (by decide) (by decide) (by simp [sampleEnv]) (Or.inr rfl) rfl
      (by simp [sampleStore]) (by decide)
      (by decide) (by decide) (by simp [sampleEnv]) (Or.inr rfl) rfl⟩

/-- Counterexample for C10: in the sample store the admin creates project `p9` and the
project lead assigns the id `u404`, which no stored user carries. The assignment is
answered 201 and `u404` is stored as the one member of `p9`, but the member lists
returned by `GET /api/projects/p9` and by `GET /api/projects/p9/assignments` are empty:
they do not contain `u404`. -/
theorem assigned_unknown_user_not_listed :
    (∀ u ∈ sampleStore.users, u._id ≠ "u404") ∧
      (serve sampleEnv sampleFresh .createProject sampleStore sampleCreateReq).response =
        some ⟨201, .projectCreated "Project created successfully" "p9"⟩ ∧
      (serve sampleEnv sampleFresh .assign
        (serve sampleEnv sampleFresh .createProject sampleStore sampleCreateReq).store
        sampleUnknownAssignReq).response =
        some ⟨201, .message "User assigned to project successfully"⟩ ∧
      (Project.findById (serve sampleEnv sampleFresh .assign
        (serve sampleEnv sampleFresh .createProject sampleStore sampleCreateReq).store
        sampleUnknownAssignReq).store.projects "p9").map (fun p => p.teamMembers) =
        some ["u404"] ∧
      (serve sampleEnv sampleFresh .listAssignments
        (serve sampleEnv sampleFresh .assign
          (serve sampleEnv sampleFresh .createProject sampleStore sampleCreateReq).store
          sampleUnknownAssignReq).store sampleAdminGetReq).response =
        some ⟨200, .users []⟩ ∧
      (serve sampleEnv sampleFresh .projectDetails
        (serve sampleEnv sampleFresh .assign
          (serve sampleEnv sampleFresh .createProject sampleStore sampleCreateReq).store
          sampleUnknownAssignReq).store sampleAdminGetReq).response =
        some ⟨200, .project
          { _id := "p9", name := "Nova", description := "", deadline := none,
            status := "active",
            createdBy := some { _id := "u1", username := some "admin" },
            teamMembers := [], createdAt := 7, teamSize := 0 }⟩ := by
  refine ⟨by decide, by decide, by decide, by decide, by decide, by decide⟩

/-! ## Properties of the upload filter -/

/-- C11: evaluation of `fileFilter` on the ten kinds of file the client enumerates, each
with its standard mime type and extension. Eight are accepted; `x.txt` with `text/plain`
and `x.doc` with `application/msword` are rejected, because the mime type is tested
against the list of extension names and contains none of them. -/
theorem fileFilter_on_client_kinds :
    fileFilter ⟨"file", "x.txt", "text/plain", 1024⟩ = false ∧
    fileFilter ⟨"file", "x.doc", "application/msword", 1024⟩ = false ∧
    fileFilter ⟨"file", "x.jpeg", "image/jpeg", 1024⟩ = true ∧
    fileFilter ⟨"file", "x.jpg", "image/jpg", 1024⟩ = true ∧
    fileFilter ⟨"file", "x.png", "image/png", 1024⟩ = true ∧
    fileFilter ⟨"file", "x.gif", "image/gif", 1024⟩ = true ∧
    fileFilter ⟨"file", "x.pdf", "application/pdf", 1024⟩ = true ∧
    fileFilter ⟨"file", "x.docx",
      "application/vnd.openxmlformats-officedocument.wordprocessingml.document", 1024⟩ = true ∧
    fileFilter ⟨"file", "x.zip", "application/zip", 1024⟩ = true ∧
    fileFilter ⟨"file", "x.rar", "application/x-rar-compressed", 1024⟩ = true := by
  refine ⟨?_, ?_, ?_, ?_, ?_, ?_, ?_, ?_, ?_, ?_⟩ <;> decide

/-- C12: evaluation of `fileFilter` on files whose extension is not one of the ten listed
ones but contains one of the names: a macro-enabled Word document with its standard mime
type, and a file named `x.jpeg2` sent as `image/jpeg`, are both accepted. -/
theorem fileFilter_accepts_unlisted_extension :
    extname "report.docm" = ".docm" ∧
    fileFilter ⟨"file", "report.docm",
      "application/vnd.ms-word.document.macroEnabled.12", 1024⟩ = true ∧
    extname "x.jpeg2" = ".jpeg2" ∧
    fileFilter ⟨"file", "x.jpeg2", "image/jpeg", 1024⟩ = true := by
  refine ⟨?_, ?_, ?_, ?_⟩ <;> decide

/-- `authenticateToken` either stops the request, leaving the store alone, or calls `next`
with the decoded identity attached and the store unchanged. -/
theorem authenticateToken_cases (env : Env) (s : Store) (req : Req) :
    ((authenticateToken env s req).nextCalls = 0 ∧ (authenticateToken env s req).store = s) ∨
    ∃ token user, authenticateToken env s req =
      Effect.callNext { req with user := some user } s [token] := by
  unfold authenticateToken
  split
  · exact Or.inl ⟨rfl, rfl⟩
  · split
    · exact Or.inl ⟨rfl, rfl⟩
    · split
      · exact Or.inl ⟨rfl, rfl⟩
      · exact Or.inr ⟨_, _, rfl⟩

/-- The gate of `requireRole` either stops the request, leaving the store alone, or calls
`next` with request and store unchanged. -/
theorem requireRole_cases (roles : List String) (s : Store) (req : Req) :
    ((requireRole roles s req).nextCalls = 0 ∧ (requireRole roles s req).store = s) ∨
    requireRole roles s req = Effect.callNext req s [] := by
  unfold requireRole
  split
  · exact Or.inl ⟨rfl, rfl⟩
  · split
    · exact Or.inl ⟨rfl, rfl⟩
    · exact Or.inr rfl

/-- C13: an upload request that carries no file, or whose file the filter rejects, or whose
file is larger than 10 * 1024 * 1024 = 10485760 bytes, creates no document row: the
document collection, and in fact the whole store, is the same after the request, and the
answer is not the 201 of a stored upload. -/
theorem upload_rejected_creates_no_row (env : Env) (fresh : Fresh) (s : Store) (req : Req)
    (hfile : req.file = none)
    (hrej : req.upload = none ∨ ∃ part, req.upload = some part ∧
      (fileFilter part = false ∨ part.size > 10485760)) :
    fileSizeLimit = 10485760 ∧
      (serve env fresh .uploadDocument s req).store.documents = s.documents ∧
      (serve env fresh .uploadDocument s req).store = s ∧
      (serve env fresh .uploadDocument s req).response ≠
        some ⟨201, .message "Document uploaded successfully"⟩ := by
  have hlimit : fileSizeLimit = 10485760 := by decide
  have hmain : (serve env fresh .uploadDocument s req).store = s ∧
      (serve env fresh .uploadDocument s req).response ≠
        some ⟨201, .message "Document uploaded successfully"⟩ := by
    simp only [serve, Route.gates, Route.handler, runChain, Gate.run]
    rcases authenticateToken_cases env s req with ⟨h0, hs⟩ | ⟨token, user, hrun⟩
    · rw [if_pos h0]
      refine ⟨hs, ?_⟩
      revert h0
      unfold authenticateToken
      split
      · simp [Effect.respond]
      · split
        · simp [Effect.respond]
        · split <;> simp [Effect.respond, Effect.callNext]
    · rw [hrun]
      simp only [Effect.callNext, Nat.succ_ne_zero, if_false, OfNat.ofNat_ne_zero,
        one_ne_zero]
      by_cases hr : user.role ∈ ["admin", "project_lead"]
      · have hpass : requireRole ["admin", "project_lead"] s { req with user := some user } =
            Effect.callNext { req with user := some user } s [] := requireRole_pass rfl hr
        rw [hpass]
        simp only [Effect.callNext, one_ne_zero, if_false]
        rcases hrej with hnone | ⟨part, hpart, hbad⟩
        · simp [uploadSingle, hnone, Effect.callNext, uploadDocumentHandler, hfile]
        · rcases hbad with hf | hsize
          · by_cases hfield : part.fieldname = "file" <;>
              simp [uploadSingle, hpart, hfield, hf, Effect.respond]
          · have hsize2 : part.size > fileSizeLimit := by rw [hlimit]; exact hsize
            by_cases hfield : part.fieldname = "file" <;>
              by_cases hf : fileFilter part = true <;>
              simp [uploadSingle, hpart, hfield, hf, hsize2, Effect.respond]
      · have hrejct : requireRole ["admin", "project_lead"] s { req with user := some user } =
            Effect.respond { req with user := some user } s 403
              (.error "Insufficient permissions") [] := requireRole_reject rfl hr
        rw [hrejct]
        simp [Effect.respond]
  exact ⟨hlimit, by rw [hmain.1], hmain.1, hmain.2⟩

/-- Witness for C13: the filter rejects `note.txt` sent as `text/plain`, and the store is
left as it was. -/
theorem upload_rejected_creates_no_row_witness :
    fileFilter ⟨"file", "note.txt", "text/plain", 1024⟩ = false ∧
      (serve sampleEnv sampleFresh .uploadDocument sampleStore
        sampleUploadTxtReq).store.documents = sampleStore.documents :=
  ⟨by decide,
    (upload_rejected_creates_no_row sampleEnv sampleFresh sampleStore sampleUploadTxtReq rfl
      (Or.inr ⟨⟨"file", "note.txt", "text/plain", 1024⟩, rfl, Or.inl (by decide)⟩)).2.1⟩

/-- C14: evaluation of the upload route on a project id under which no project is stored.
The sample store has no project `p404`; the upload is answered 201 and a document row
referring to `p404` is created. -/
theorem upload_to_missing_project_creates_row :
    Project.findById sampleStore.projects "p404" = none ∧
      sampleStore.documents = [] ∧
      (serve sampleEnv sampleDocFresh .uploadDocument sampleStore
        sampleOrphanUploadReq).response =
        some ⟨201, .message "Document uploaded successfully"⟩ ∧
      (serve sampleEnv sampleDocFresh .uploadDocument sampleStore
        sampleOrphanUploadReq).store.documents =
        [ { _id := "d9", project := "p404", filename := "0000-logo.png",
            originalName := "logo.png", filePath := "uploads/0000-logo.png",
            fileSize := 1024, mimeType := "image/png", uploadedBy := "u1",
            createdAt := 8 } ] := by
  refine ⟨?_, ?_, ?_, ?_⟩ <;> decide

/-- C15: evaluation of the upload of a 1 KB file `note.txt` of type `text/plain` to the
project `p1`, which has no documents, by the admin: the filter rejects the file, the
answer is the 500 of the default error handler, and the document list of `p1` read
afterwards is empty instead of holding one entry. -/
theorem upload_txt_then_list_is_empty :
    (serve sampleEnv sampleFresh .uploadDocument sampleStore sampleUploadTxtReq).response =
        some ⟨500, .unhandled "Invalid file type"⟩ ∧
      (serve sampleEnv sampleFresh .listDocuments
        (serve sampleEnv sampleFresh .uploadDocument sampleStore sampleUploadTxtReq).store
        sampleListDocumentsReq).response = some ⟨200, .documents []⟩ := by
  refine ⟨?_, ?_⟩ <;> decide

/-! ## Properties of the stored file name -/

/-- The characters of a stored file name: the identifier, a hyphen, the original name. -/
theorem storedFilename_data (uuid originalname : String) :
    (storedFilename uuid originalname).data = uuid.data ++ '-' :: originalname.data := by
  simp [storedFilename, String.data_append]

/-- Stored names with identifiers of equal length agree only when both parts agree. -/
theorem storedFilename_inj {uuid1 uuid2 name1 name2 : String}
    (hlen : uuid1.length = uuid2.length)
    (heq : storedFilename uuid1 name1 = storedFilename uuid2 name2) :
    uuid1 = uuid2 ∧ name1 = name2 := by
  have hdata := congrArg String.data heq
  rw [storedFilename_data, storedFilename_data] at hdata
  have hlen2 : uuid1.data.length = uuid2.data.length := hlen
  obtain ⟨ha, hb⟩ := List.append_inj hdata hlen2
  exact ⟨String.ext ha, String.ext (List.cons.inj hb).2⟩

/-- C16: the stored name is the identifier, then `-`, then the original name. For
identifiers of length 36 the pair of identifier and original name is determined by the
stored name, so different identifiers give different stored names even for equal original
names, and dropping the first 37 characters of the stored name gives back the original
name. -/
theorem storedFilename_injective (uuid1 uuid2 name1 name2 : String)
    (h1 : uuid1.length = 36) (h2 : uuid2.length = 36) :
    storedFilename uuid1 name1 = uuid1 ++ "-" ++ name1 ∧
      (storedFilename uuid1 name1 = storedFilename uuid2 name2 →
        uuid1 = uuid2 ∧ name1 = name2) ∧
      (uuid1 ≠ uuid2 → storedFilename uuid1 name1 ≠ storedFilename uuid2 name1) ∧
      (storedFilename uuid1 name1).drop 37 = name1 := by
  have hlen : uuid1.length = uuid2.length := by rw [h1, h2]
  refine ⟨rfl, storedFilename_inj hlen, ?_, ?_⟩
  · intro hne heq
    exact hne (storedFilename_inj hlen heq).1
  · apply String.ext
    rw [String.data_drop, storedFilename_data]
    have e1 : uuid1.data.length = 36 := h1
    rw [List.drop_append_eq_append_drop, e1]
    simp [List.drop_eq_nil_of_le, e1]

/-- Witness for C16: two uploads of `logo.png` under two identifiers. -/
theorem storedFilename_injective_witness :
    storedFilename "123e4567-e89b-42d3-a456-426614174000" "logo.png" ≠
        storedFilename "123e4567-e89b-42d3-a456-426614174111" "logo.png" ∧
      (storedFilename "123e4567-e89b-42d3-a456-426614174000" "logo.png").drop 37 =
        "logo.png" :=
  ⟨(storedFilename_injective "123e4567-e89b-42d3-a456-426614174000"
      "123e4567-e89b-42d3-a456-426614174111" "logo.png" "logo.png"
      (by decide) (by decide)).2.2.1 (by decide),
    (storedFilename_injective "123e4567-e89b-42d3-a456-426614174000"
      "123e4567-e89b-42d3-a456-426614174111" "logo.png" "logo.png"
      (by decide) (by decide)).2.2.2⟩

/-! ## Properties of the document deletion route -/

/-- The deletion handler reads nothing of the request but the document id. -/
theorem deleteDocumentHandler_congr (env : Env) (s : Store) (req1 req2 : Req)
    (h : req1.params.documentId = req2.params.documentId) :
    deleteDocumentHandler env s req1 = deleteDocumentHandler env s req2 := by
  simp [deleteDocumentHandler, h]

/-- C17: for two callers whose roles are admin or project_lead, deleting the same document
id from the same store gives the same response and the same store afterwards, whoever
the callers are: the route consults the role only, never the project of the document. -/
theorem deleteDocument_depends_on_role_only (env : Env) (fresh1 fresh2 : Fresh) (s : Store)
    (req1 req2 : Req) (tok1 tok2 : String) (caller1 caller2 : Identity)
    (ht1 : extractToken req1.authorization = some tok1) (hn1 : tok1 ≠ "")
    (hv1 : env.verify tok1 = .ok caller1)
    (hr1 : caller1.role = "admin" ∨ caller1.role = "project_lead")
    (ht2 : extractToken req2.authorization = some tok2) (hn2 : tok2 ≠ "")
    (hv2 : env.verify tok2 = .ok caller2)
    (hr2 : caller2.role = "admin" ∨ caller2.role = "project_lead")
    (hdoc : req1.params.documentId = req2.params.documentId) :
    (serve env fresh1 .deleteDocument s req1).response =
        (serve env fresh2 .deleteDocument s req2).response ∧
      (serve env fresh1 .deleteDocument s req1).store =
        (serve env fresh2 .deleteDocument s req2).store ∧
      (serve env fresh1 .deleteDocument s req1).handlerRan = true ∧
      (serve env fresh2 .deleteDocument s req2).handlerRan = true := by
  have ha1 : caller1.role ∈ ["admin", "project_lead"] := by
    rcases hr1 with h | h <;> simp [h]
  have ha2 : caller2.role ∈ ["admin", "project_lead"] := by
    rcases hr2 with h | h <;> simp [h]
  have hrun1 := runChain_role_pass env fresh1 (deleteDocumentHandler env)
    ["admin", "project_lead"] s req1 tok1 caller1 ht1 hn1 hv1 ha1
  have hrun2 := runChain_role_pass env fresh2 (deleteDocumentHandler env)
    ["admin", "project_lead"] s req2 tok2 caller2 ht2 hn2 hv2 ha2
  have hsame : deleteDocumentHandler env s { req1 with user := some caller1 } =
      deleteDocumentHandler env s { req2 with user := some caller2 } :=
    deleteDocumentHandler_congr env s _ _ hdoc
  simp [serve, Route.gates, Route.handler, hrun1, hrun2, hsame]

/-- Witness for C17: the admin `u1`, creator of project `p1`, and the project lead `u3`,
neither creator nor member of `p1`, delete document `d1` of `p1`. -/
theorem deleteDocument_depends_on_role_only_witness :
    (serve sampleEnv sampleFresh .deleteDocument sampleStoreWithDocument
        (sampleDeleteReq "tok-admin")).response =
      (serve sampleEnv sampleFresh .deleteDocument sampleStoreWithDocument
        (sampleDeleteReq "tok-lead")).response ∧
    (serve sampleEnv sampleFresh .deleteDocument sampleStoreWithDocument
        (sampleDeleteReq "tok-admin")).store =
      (serve sampleEnv sampleFresh .deleteDocument sampleStoreWithDocument
        (sampleDeleteReq "tok-lead")).store :=
  ⟨(deleteDocument_depends_on_role_only sampleEnv sampleFresh sampleFresh
      sampleStoreWithDocument (sampleDeleteReq "tok-admin") (sampleDeleteReq "tok-lead")
      "tok-admin" "tok-lead" { id := "u1", username := "admin", role := "admin" }
      { id := "u3", username := "lee", role := "project_lead" }
      (by decide) (by decide) (by simp [sampleEnv]) (Or.inl rfl)
      (by decide) (by decide) (by simp [sampleEnv]) (Or.inr rfl) rfl).1,
    (deleteDocument_depends_on_role_only sampleEnv sampleFresh sampleFresh
      sampleStoreWithDocument (sampleDeleteReq "tok-admin") (sampleDeleteReq "tok-lead")
      "tok-admin" "tok-lead" { id := "u1", username := "admin", role := "admin" }
      { id := "u3", username := "lee", role := "project_lead" }
      (by decide) (by decide) (by simp [sampleEnv]) (Or.inl rfl)
      (by decide) (by decide) (by simp [sampleEnv]) (Or.inr rfl) rfl).2.1⟩

/-! ## Properties of the project listing -/

/-- Sorting newest first gives a rearrangement that is ordered by creation time,
descending. -/
theorem sortProjectsNewestFirst_spec (ps : List Project) :
    (sortProjectsNewestFirst ps).Perm ps ∧
      (sortProjectsNewestFirst ps).Sorted (fun a b => a.createdAt ≥ b.createdAt) := by
  haveI : IsTotal Project (fun a b => a.createdAt ≥ b.createdAt) :=
    ⟨fun a b => Nat.le_total b.createdAt a.createdAt⟩
  haveI : IsTrans Project (fun a b => a.createdAt ≥ b.createdAt) :=
    ⟨fun _ _ _ hab hbc => Nat.le_trans hbc hab⟩
  exact ⟨List.perm_insertionSort _ ps, List.sorted_insertionSort _ ps⟩

/-- A chain of `authenticateToken` alone lets a verified caller through to the handler. -/
theorem runChain_auth_pass (env : Env) (fresh : Fresh)
    (handler : Store → Req → Store × Response) (s : Store) (req : Req) (token : String)
    (user : Identity) (htok : extractToken req.authorization = some token)
    (hne : token ≠ "") (hver : env.verify token = .ok user) :
    runChain env fresh handler [.authenticateToken] s req =
      { store := (handler s { req with user := some user }).1,
        response := some (handler s { req with user := some user }).2,
        handlerRan := true, verified := [token] } := by
  have h1 := authenticateToken_ok (s := s) htok hne hver
  simp [runChain, Gate.run, h1, Effect.callNext]

/-- C18: for an authenticated caller, `GET /api/projects` answers 200 with the serialised
list of: all projects for role admin; the projects whose `createdBy` is the caller's id for
role project_lead; the projects whose `teamMembers` holds the caller's id for any other
role. The list is a rearrangement of exactly those projects, ordered by creation time,
newest first. -/
theorem listProjects_by_role (env : Env) (fresh : Fresh) (s : Store) (req : Req)
    (token : String) (user : Identity)
    (htok : extractToken req.authorization = some token) (hne : token ≠ "")
    (hver : env.verify token = .ok user) :
    ∃ ps : List Project,
      (serve env fresh .listProjects s req).response =
        some ⟨200, .projects (ps.map
          (Project.view s.users (.inclusive ["username"]) (.inclusive ["username"])))⟩ ∧
      ps.Sorted (fun a b => a.createdAt ≥ b.createdAt) ∧
      (user.role = "admin" → ps.Perm s.projects) ∧
      (user.role = "project_lead" →
        ps.Perm (s.projects.filter (fun p => p.createdBy == user.id))) ∧
      (user.role ≠ "admin" → user.role ≠ "project_lead" →
        ps.Perm (s.projects.filter (fun p => p.teamMembers.contains user.id))) := by
  have hrun := runChain_auth_pass env fresh listProjectsHandler s req token user htok hne hver
  by_cases hadmin : user.role = "admin"
  · refine ⟨sortProjectsNewestFirst s.projects, ?_, (sortProjectsNewestFirst_spec _).2,
      fun _ => (sortProjectsNewestFirst_spec _).1, fun hl => ?_, fun hn => absurd hadmin hn⟩
    · simp [serve, Route.gates, Route.handler, hrun, listProjectsHandler, hadmin]
    · rw [hadmin] at hl
      exact absurd hl (by decide)
  · by_cases hlead : user.role = "project_lead"
    · refine ⟨sortProjectsNewestFirst (s.projects.filter (fun p => p.createdBy == user.id)),
        ?_, (sortProjectsNewestFirst_spec _).2, fun ha => absurd ha hadmin,
        fun _ => (sortProjectsNewestFirst_spec _).1, fun _ hn => absurd hlead hn⟩
      simp [serve, Route.gates, Route.handler, hrun, listProjectsHandler, hlead]
    · refine ⟨sortProjectsNewestFirst
          (s.projects.filter (fun p => p.teamMembers.contains user.id)),
        ?_, (sortProjectsNewestFirst_spec _).2, fun ha => absurd ha hadmin,
        fun hl => absurd hl hlead, fun _ _ => (sortProjectsNewestFirst_spec _).1⟩
      simp [serve, Route.gates, Route.handler, hrun, listProjectsHandler, hadmin, hlead]

/-- Witness for C18: the developer `u2` lists the projects and gets project `p1`, of which
`u2` is a member. -/
theorem listProjects_by_role_witness :
    ∃ ps : List Project,
      (serve sampleEnv sampleFresh .listProjects sampleStore
        { authorization := some "Bearer tok-dev" }).response =
        some ⟨200, .projects (ps.map
          (Project.view sampleStore.users (.inclusive ["username"])
            (.inclusive ["username"])))⟩ ∧
      ps.Sorted (fun a b => a.createdAt ≥ b.createdAt) ∧
      ps.Perm (sampleStore.projects.filter (fun p => p.teamMembers.contains "u2")) :=
  match listProjects_by_role sampleEnv sampleFresh sampleStore
      { authorization := some "Bearer tok-dev" } "tok-dev"
      { id := "u2", username := "dana", role := "developer" }
      (by decide) (by decide) (by simp [sampleEnv]) with
  | ⟨ps, hresp, hsorted, _, _, hother⟩ =>
    ⟨ps, hresp, hsorted, hother (by decide) (by decide)⟩

/-! ## Properties of the status route -/

/-- C19: evaluation of `PUT /api/projects/p1/status` with the body `status: archived`, sent
by the admin to the sample store. Every status of the sample store is `active`; the
update is answered 200 and project `p1` is stored with the status `archived`, which is
neither `active` nor `completed`. -/
theorem updateStatus_stores_any_status :
    StatusValid sampleStore ∧
      (serve sampleEnv sampleFresh .updateStatus sampleStore sampleStatusReq).response =
        some ⟨200, .message "Project status updated successfully"⟩ ∧
      (Project.findById
        (serve sampleEnv sampleFresh .updateStatus sampleStore sampleStatusReq).store.projects
        "p1").map (fun p => p.status) = some "archived" ∧
      ¬ StatusValid (serve sampleEnv sampleFresh .updateStatus sampleStore
        sampleStatusReq).store := by
  have hstore : (serve sampleEnv sampleFresh .updateStatus sampleStore
      sampleStatusReq).store.projects =
      [ { _id := "p1", name := "Atlas", description := "", deadline := none,
          status := "archived", createdBy := "u1", teamMembers := ["u2"], createdAt := 4 },
        { _id := "p2", name := "Borealis", description := "", deadline := none,
          status := "active", createdBy := "u3", teamMembers := [], createdAt := 5 } ] := by
    decide
  refine ⟨?_, by decide, ?_, ?_⟩
  · simp [StatusValid, sampleStore]
  · rw [hstore]; decide
  · intro h
    have := h _ (by rw [hstore]; exact List.mem_cons_self _ _)
    revert this
    decide

/-! ## The creator of a project never changes -/

/-- Lookup by an id other than the one an update is addressed to. -/
theorem Project.findById_updateFirst_other {f : Project → Project} {q pid : String}
    (hne : pid ≠ q) (hf : ∀ p, p._id = q → (f p)._id = q) (projects : List Project) :
    Project.findById (updateFirst (fun p => p._id == q) f projects) pid =
      Project.findById projects pid := by
  induction projects with
  | nil => simp [updateFirst, Project.findById]
  | cons x xs ih =>
    have ih2 := ih
    simp only [Project.findById] at ih2
    by_cases hx : x._id = q
    · have h1 : ¬ (f x)._id = pid := fun h => hne (by rw [← h, hf x hx])
      have h2 : ¬ q = pid := fun h => hne h.symm
      simp [updateFirst, Project.findById, hx, h1, h2]
    · by_cases hp : x._id = pid
      · have h3 : ¬ pid = q := hne
        simp [updateFirst, Project.findById, hp, h3]
      · simp [updateFirst, Project.findById, hx, hp, ih2]

/-- An update addressed to an id that keeps id and creator keeps every recorded creator. -/
theorem creatorOf_updateFirst {projects : List Project} {f : Project → Project} {q : String}
    (hid : ∀ p, p._id = q → (f p)._id = q)
    (hcreator : ∀ p, Project.findById projects q = some p → (f p).createdBy = p.createdBy)
    (pid : String) :
    creatorOf (updateFirst (fun p => p._id == q) f projects) pid = creatorOf projects pid := by
  unfold creatorOf
  by_cases hq : pid = q
  · subst hq
    rw [Project.findById_updateFirst_same hid]
    cases hfind : Project.findById projects pid with
    | none => rfl
    | some p => simp [hcreator p hfind]
  · rw [Project.findById_updateFirst_other hq hid]

/-- Appending a project keeps every recorded creator. -/
theorem creatorOf_append {projects : List Project} {pid c : String} (P : Project)
    (h : creatorOf projects pid = some c) : creatorOf (projects ++ [P]) pid = some c := by
  unfold creatorOf Project.findById at h ⊢
  cases hfind : List.find? (fun p => p._id == pid) projects with
  | none => simp [hfind] at h
  | some p =>
    rw [hfind] at h
    simp [List.find?_append, hfind, h]

/-- Every route handler keeps every recorded creator. -/
theorem Route.handler_creatorOf (env : Env) (fresh : Fresh) (route : Route) (s : Store)
    (req : Req) (pid c : String) (h : creatorOf s.projects pid = some c) :
    creatorOf (route.handler env fresh s req).1.projects pid = some c := by
  cases route with
  | login =>
    simp only [Route.handler, loginHandler]
    split
    · exact h
    · split <;> exact h
  | listUsers => exact h
  | createUser =>
    simp only [Route.handler, createUserHandler]
    split <;> exact h
  | listProjects =>
    simp only [Route.handler, listProjectsHandler]
    split <;> exact h
  | createProject =>
    simp only [Route.handler, createProjectHandler]
    split
    · exact h
    · split
      · rename_i project projects hc
        obtain ⟨-, -, -, -, hp, -⟩ := Project.create_ok hc
        show creatorOf projects pid = some c
        rw [hp]
        exact creatorOf_append project h
      · exact h
  | updateStatus =>
    simp only [Route.handler, updateStatusHandler]
    split
    · exact h
    · refine Eq.trans (creatorOf_updateFirst ?_ ?_ pid) h
      · intro p hp; exact hp
      · intro p _; rfl
  | listAssignments =>
    simp only [Route.handler, listAssignmentsHandler]
    split <;> exact h
  | assign =>
    simp only [Route.handler, assignHandler]
    split
    · exact h
    · rename_i project hfind
      split
      · exact h
      · split
        · exact h
        · refine Eq.trans (creatorOf_updateFirst ?_ ?_ pid) h
          · intro p _; exact (Project.findById_some hfind).2
          · intro p hp
            rw [hfind] at hp
            cases hp
            rfl
  | unassign =>
    simp only [Route.handler, unassignHandler]
    split
    · exact h
    · refine Eq.trans (creatorOf_updateFirst ?_ ?_ pid) h
      · intro p hp; exact hp
      · intro p _; rfl
  | listDocuments => exact h
  | uploadDocument =>
    simp only [Route.handler, uploadDocumentHandler]
    split
    · exact h
    · split
      · exact h
      · split <;> exact h
  | deleteDocument =>
    simp only [Route.handler, deleteDocumentHandler]
    split
    · exact h
    · split <;> exact h
  | availableUsers => exact h
  | projectDetails =>
    simp only [Route.handler, projectDetailsHandler]
    split <;> exact h

/-- A chain of middleware in front of a handler preserves every property of the project
collection that the handler preserves. -/
theorem runChain_projects_property (env : Env) (fresh : Fresh)
    (handler : Store → Req → Store × Response) (I : List Project → Prop)
    (hh : ∀ s req, I s.projects → I (handler s req).1.projects)
    (gates : List Gate) (s : Store) (req : Req) (h : I s.projects) :
    I (runChain env fresh handler gates s req).store.projects := by
  induction gates generalizing s req with
  | nil => exact hh s req h
  | cons g gs ih =>
    have hg : I (g.run env fresh s req).store.projects := by
      rw [gate_run_projects]; exact h
    simp only [runChain]
    split
    · exact hg
    · exact ih _ _ hg

/-- What a 201 answer of the project-creation handler tells about the creator stored. -/
theorem createProjectHandler_creator {fresh : Fresh} {s : Store} {req : Req}
    {user : Identity} {msg pid : String} (huser : req.user = some user)
    (h : (createProjectHandler fresh s req).2 = ⟨201, .projectCreated msg pid⟩) :
    creatorOf (createProjectHandler fresh s req).1.projects pid = some user.id := by
  cases hc : Project.create fresh s.projects req.body user.id with
  | error e => simp [createProjectHandler, huser, hc, serverError] at h
  | ok out =>
    obtain ⟨project, projects⟩ := out
    obtain ⟨-, hid, hcreator, -, hp, hnew⟩ := Project.create_ok hc
    simp only [createProjectHandler, huser, hc, Response.mk.injEq,
      Payload.projectCreated.injEq, true_and] at h
    have hpid : project._id = pid := h.2
    have hfind : Project.findById (s.projects ++ [project]) project._id = some project :=
      Project.findById_append_new (by rw [hid]; exact hnew)
    simp [createProjectHandler, huser, hc, hp, creatorOf, ← hpid, hfind, hcreator]

/-- C20: the creator of a project is set once and never changes. A creation answered 201
stores, under the new id, the id of the authenticated caller as `createdBy`, whatever the
request body holds; and a creator recorded for a project id in some store is the creator
recorded for it in every store reachable from there through the routes. -/
theorem creator_set_once (env : Env) :
    (∀ (fresh : Fresh) (s : Store) (req : Req) (token : String) (user : Identity)
        (msg pid : String),
        extractToken req.authorization = some token → token ≠ "" →
        env.verify token = .ok user →
        (serve env fresh .createProject s req).response =
          some ⟨201, .projectCreated msg pid⟩ →
        creatorOf (serve env fresh .createProject s req).store.projects pid =
          some user.id) ∧
    (∀ (fresh : Fresh) (route : Route) (s : Store) (req : Req) (pid c : String),
        creatorOf s.projects pid = some c →
        creatorOf (serve env fresh route s req).store.projects pid = some c) ∧
    (∀ (s0 s : Store) (pid c : String), creatorOf s0.projects pid = some c →
        Reachable env s0 s → creatorOf s.projects pid = some c) := by
  have hstep : ∀ (fresh : Fresh) (route : Route) (s : Store) (req : Req) (pid c : String),
      creatorOf s.projects pid = some c →
      creatorOf (serve env fresh route s req).store.projects pid = some c := by
    intro fresh route s req pid c h
    exact runChain_projects_property env fresh (route.handler env fresh)
      (fun ps => creatorOf ps pid = some c)
      (fun s2 req2 h2 => Route.handler_creatorOf env fresh route s2 req2 pid c h2)
      route.gates s req h
  refine ⟨?_, hstep, ?_⟩
  · intro fresh s req token user msg pid htok hne hver hresp
    by_cases hrole : user.role ∈ ["admin"]
    · have hrun := runChain_role_pass env fresh (createProjectHandler fresh) ["admin"] s req
        token user htok hne hver hrole
      have hserve : serve env fresh .createProject s req =
          { store := (createProjectHandler fresh s { req with user := some user }).1,
            response := some (createProjectHandler fresh s { req with user := some user }).2,
            handlerRan := true, verified := [token] } := by
        simp [serve, Route.gates, Route.handler, hrun]
      rw [hserve] at hresp ⊢
      simp only [Option.some.injEq] at hresp
      exact createProjectHandler_creator rfl hresp
    · have hrej := (runChain_role_reject env fresh (createProjectHandler fresh) ["admin"] []
        s req token user htok hne hver hrole)
      have hserve : serve env fresh .createProject s req =
          { store := s, response := some ⟨403, .error "Insufficient permissions"⟩,
            handlerRan := false, verified := [token] } := by
        simp [serve, Route.gates, Route.handler, hrej]
      rw [hserve] at hresp
      simp at hresp
  · intro s0 s pid c h0 hreach
    induction hreach with
    | start => exact h0
    | step s1 fresh route req _ ih => exact hstep fresh route s1 req pid c ih

/-- Witness for C20: the admin `u1` creates a project with a body that names `u2` as
creator, and `u1` is stored; afterwards a status update leaves that creator in place. -/
theorem creator_set_once_witness :
    creatorOf (serve sampleEnv sampleFresh .createProject sampleStore
        sampleSpoofCreateReq).store.projects "p9" = some "u1" ∧
      creatorOf (serve sampleEnv sampleFresh .updateStatus
        (serve sampleEnv sampleFresh .createProject sampleStore sampleSpoofCreateReq).store
        { sampleStatusReq with params := { projectId := "p9" } }).store.projects "p9" =
        some "u1" :=
  ⟨(creator_set_once sampleEnv).1 sampleFresh sampleStore sampleSpoofCreateReq "tok-admin"
      { id := "u1", username := "admin", role := "admin" } "Project created successfully"
      "p9" (by decide) (by decide) (by simp [sampleEnv]) (by decide),
    (creator_set_once sampleEnv).2.1 sampleFresh .updateStatus _
      { sampleStatusReq with params := { projectId := "p9" } } "p9" "u1" (by decide)⟩

/-! ## Upload, list, delete, list -/

/-- The upload chain lets a verified, allowed caller with an acceptable file through to
the handler, with the file written to the upload directory and described in `req.file`. -/
theorem runChain_upload_pass (env : Env) (fresh : Fresh)
    (handler : Store → Req → Store × Response) (s : Store) (req : Req) (token : String)
    (user : Identity) (part : Multipart)
    (htok : extractToken req.authorization = some token) (hne : token ≠ "")
    (hver : env.verify token = .ok user) (hrole : user.role ∈ ["admin", "project_lead"])
    (hpart : req.upload = some part) (hfield : part.fieldname = "file")
    (hfilter : fileFilter part = true) (hsize : part.size ≤ fileSizeLimit) :
    runChain env fresh handler
        [.authenticateToken, .requireRole ["admin", "project_lead"], .uploadSingle] s req =
      { store := (handler (storeWithFile env fresh part s)
          { req with user := some user, file := some (acceptedFile env fresh part) }).1,
        response := some (handler (storeWithFile env fresh part s)
          { req with user := some user, file := some (acceptedFile env fresh part) }).2,
        handlerRan := true, verified := [token] } := by
  have h1 := authenticateToken_ok (s := s) htok hne hver
  have h2 : requireRole ["admin", "project_lead"] s { req with user := some user } =
      Effect.callNext { req with user := some user } s [] :=
    requireRole_pass rfl hrole
  have h3 : ¬ part.size > fileSizeLimit := Nat.not_lt.mpr hsize
  have h4 : uploadSingle env fresh s { req with user := some user } =
      Effect.callNext
        { req with user := some user, file := some (acceptedFile env fresh part) }
        (storeWithFile env fresh part s) [] := by
    simp [uploadSingle, hpart, hfield, hfilter, h3, storeWithFile, acceptedFile]
  simp only [runChain, Gate.run, h1, Effect.callNext, one_ne_zero, if_false]
  rw [h2]
  simp only [Effect.callNext, one_ne_zero, if_false]
  rw [h4]
  simp [Effect.callNext]

/-- The upload handler on a request with `req.file` and `req.user` set stores one row,
provided the fresh id is new in the collection. -/
theorem uploadDocumentHandler_stores (env : Env) (fresh : Fresh) (part : Multipart)
    (s : Store) (req : Req) (user : Identity)
    (hfile : req.file = some (acceptedFile env fresh part)) (huser : req.user = some user)
    (hfresh : ∀ d ∈ s.documents, d._id ≠ fresh.oid) :
    uploadDocumentHandler fresh s req =
      ({ s with documents := s.documents ++
            [uploadedRow env fresh part req.params.projectId user.id] },
        ⟨201, .message "Document uploaded successfully"⟩) := by
  have hnodup : s.documents.any (fun d => d._id == fresh.oid) = false := by
    rw [List.any_eq_false]
    intro d hd
    simpa using hfresh d hd
  simp [uploadDocumentHandler, hfile, huser, Document.create, hnodup, uploadedRow, acceptedFile]

/-- The listing handler on a collection that holds exactly one row of the project. -/
theorem listDocumentsHandler_single (s : Store) (req : Req) (documents : List Document)
    (row : Document) (hdocs : s.documents = documents ++ [row])
    (hnone : ∀ d ∈ documents, d.project ≠ req.params.projectId)
    (hrow : row.project = req.params.projectId) :
    (listDocumentsHandler s req).2 =
      ⟨200, .documents [Document.view s.users (.inclusive ["username"]) row]⟩ := by
  have hfilter : documents.filter (fun d => d.project == req.params.projectId) = [] := by
    rw [List.filter_eq_nil_iff]
    intro d hd
    simpa using hnone d hd
  simp [listDocumentsHandler, hdocs, List.filter_append, hfilter, hrow,
    sortDocumentsNewestFirst]

/-- The listing handler on a collection that holds no row of the project. -/
theorem listDocumentsHandler_none (s : Store) (req : Req)
    (hnone : ∀ d ∈ s.documents, d.project ≠ req.params.projectId) :
    (listDocumentsHandler s req).2 = ⟨200, .documents []⟩ := by
  have hfilter : s.documents.filter (fun d => d.project == req.params.projectId) = [] := by
    rw [List.filter_eq_nil_iff]
    intro d hd
    simpa using hnone d hd
  simp [listDocumentsHandler, hfilter, sortDocumentsNewestFirst]

/-- The deletion handler on a collection whose last row is the only one with the id. -/
theorem deleteDocumentHandler_last (env : Env) (s : Store) (req : Req) (id : String)
    (documents : List Document) (row : Document)
    (hcast : env.castObjectId req.params.documentId = some id)
    (hdocs : s.documents = documents ++ [row])
    (hnone : ∀ d ∈ documents, d._id ≠ id)
    (hrow : row._id = id) :
    (deleteDocumentHandler env s req).2 =
        ⟨200, .message "Document deleted successfully"⟩ ∧
      (deleteDocumentHandler env s req).1.documents = documents ∧
      (deleteDocumentHandler env s req).1.projects = s.projects ∧
      (deleteDocumentHandler env s req).1.users = s.users := by
  have hfind : List.find? (fun d => d._id == id) documents = none := by
    rw [List.find?_eq_none]
    intro d hd
    simpa using hnone d hd
  have hfound : List.find? (fun d => d._id == id) s.documents = some row := by
    simp [hdocs, List.find?_append, hfind, hrow]
  have herase : s.documents.eraseP (fun d => d._id == id) = documents := by
    rw [hdocs, List.eraseP_append_right _ (by
      intro d hd
      simpa using hnone d hd)]
    simp [hrow]
  simp [deleteDocumentHandler, hcast, hfound, herase]

/-- Upload, list, delete, list, for a file the upload middleware accepts. An admin uploads
an accepted file to an existing project that has no documents, under an id that is new
in the collection. Then the upload is answered 201, the listing holds exactly one entry
with the original name and size of the file, the deletion of the new row is answered
200 and gives back the old document collection, and the second listing is empty. -/
theorem upload_list_delete_roundtrip (env : Env) (f1 f2 f3 f4 : Fresh) (s : Store)
    (upReq listReq delReq : Req) (token : String) (caller : Identity) (P : Project)
    (part : Multipart)
    (hU : extractToken upReq.authorization = some token)
    (hL : extractToken listReq.authorization = some token)
    (hD : extractToken delReq.authorization = some token) (hne : token ≠ "")
    (hver : env.verify token = .ok caller) (hrole : caller.role = "admin")
    (hP : Project.findById s.projects upReq.params.projectId = some P)
    (hempty : ∀ d ∈ s.documents, d.project ≠ upReq.params.projectId)
    (hfresh : ∀ d ∈ s.documents, d._id ≠ f1.oid)
    (hLpid : listReq.params.projectId = upReq.params.projectId)
    (hDid : env.castObjectId delReq.params.documentId = some f1.oid)
    (hpart : upReq.upload = some part) (hfield : part.fieldname = "file")
    (hfilter : fileFilter part = true) (hsize : part.size ≤ fileSizeLimit) :
    (serve env f1 .uploadDocument s upReq).response =
        some ⟨201, .message "Document uploaded successfully"⟩ ∧
    (∃ v : DocumentView,
      (serve env f2 .listDocuments (serve env f1 .uploadDocument s upReq).store
        listReq).response = some ⟨200, .documents [v]⟩ ∧
      v.originalName = part.originalname ∧ v.fileSize = part.size) ∧
    (serve env f3 .deleteDocument (serve env f1 .uploadDocument s upReq).store
        delReq).response = some ⟨200, .message "Document deleted successfully"⟩ ∧
    (serve env f3 .deleteDocument (serve env f1 .uploadDocument s upReq).store
        delReq).store.documents = s.documents ∧
    (serve env f4 .listDocuments
        (serve env f3 .deleteDocument (serve env f1 .uploadDocument s upReq).store
          delReq).store listReq).response = some ⟨200, .documents []⟩ := by
  have hallow : caller.role ∈ ["admin", "project_lead"] := by simp [hrole]
  have hacc : hasAccess caller P = true := (hasAccess_iff caller P).mpr (Or.inl hrole)
  -- the upload
  obtain ⟨row, hrowdef⟩ : ∃ x : Document,
      x = uploadedRow env f1 part upReq.params.projectId caller.id := ⟨_, rfl⟩
  obtain ⟨s1, hs1def⟩ : ∃ x : Store, x =
      { storeWithFile env f1 part s with documents := s.documents ++ [row] } := ⟨_, rfl⟩
  have hup := runChain_upload_pass env f1 (uploadDocumentHandler f1) s upReq token caller part
    hU hne hver hallow hpart hfield hfilter hsize
  have hhandler := uploadDocumentHandler_stores env f1 part (storeWithFile env f1 part s)
    { upReq with user := some caller, file := some (acceptedFile env f1 part) } caller
    rfl rfl hfresh
  have hserve1 : serve env f1 .uploadDocument s upReq =
      { store := s1, response := some ⟨201, .message "Document uploaded successfully"⟩,
        handlerRan := true, verified := [token] } := by
    simp only [serve, Route.gates, Route.handler]
    rw [hup, hhandler, hs1def, hrowdef]
    rfl
  rw [hserve1]
  have hs1docs : s1.documents = s.documents ++ [row] := by rw [hs1def]
  have hs1projects : s1.projects = s.projects := by rw [hs1def]; rfl
  have hrowproject : row.project = upReq.params.projectId := by rw [hrowdef]; rfl
  have hrowid : row._id = f1.oid := by rw [hrowdef]; rfl
  -- the first listing
  have hfindL : Project.findById s1.projects listReq.params.projectId = some P := by
    rw [hs1projects, hLpid]; exact hP
  have hrunL := runChain_access_pass env f2 listDocumentsHandler s1 listReq token caller P
    hL hne hver hfindL hacc
  have hlist := listDocumentsHandler_single s1 { listReq with user := some caller }
    s.documents row hs1docs (by intro d hd; rw [hLpid]; exact hempty d hd)
    (by rw [hrowproject]; exact hLpid.symm)
  -- the deletion
  have hrunD := runChain_role_pass env f3 (deleteDocumentHandler env)
    ["admin", "project_lead"] s1 delReq token caller hD hne hver hallow
  obtain ⟨hdelresp, hdeldocs, hdelprojects, -⟩ :=
    deleteDocumentHandler_last env s1 { delReq with user := some caller } f1.oid
      s.documents row hDid hs1docs hfresh hrowid
  have hserve3 : serve env f3 .deleteDocument s1 delReq =
      { store := (deleteDocumentHandler env s1 { delReq with user := some caller }).1,
        response := some ⟨200, .message "Document deleted successfully"⟩,
        handlerRan := true, verified := [token] } := by
    simp only [serve, Route.gates, Route.handler]
    rw [hrunD, hdelresp]
  rw [hserve3]
  -- the second listing
  have hfindL2 : Project.findById
      (deleteDocumentHandler env s1 { delReq with user := some caller }).1.projects
      listReq.params.projectId = some P := by
    rw [hdelprojects]; exact hfindL
  have hrunL2 := runChain_access_pass env f4 listDocumentsHandler
    (deleteDocumentHandler env s1 { delReq with user := some caller }).1 listReq token caller P
    hL hne hver hfindL2 hacc
  have hlist2 := listDocumentsHandler_none
    (deleteDocumentHandler env s1 { delReq with user := some caller }).1
    { listReq with user := some caller }
    (by
      intro d hd
      rw [hdeldocs] at hd
      show d.project ≠ listReq.params.projectId
      rw [hLpid]; exact hempty d hd)
  refine ⟨rfl, ⟨Document.view s1.users (.inclusive ["username"]) row, ?_, ?_, ?_⟩, rfl,
    hdeldocs, ?_⟩
  · simp only [serve, Route.gates, Route.handler]
    rw [hrunL, hlist]
  · rw [hrowdef]; rfl
  · rw [hrowdef]; rfl
  · simp only [serve, Route.gates, Route.handler]
    rw [hrunL2, hlist2]

/-! ## Updates addressed to a project that does not exist -/

/-- C21: evaluation of `PUT /api/projects/p404/status` and of
`DELETE /api/projects/p404/assignments/u2`, sent by the admin to the sample store, which
holds no project `p404`. Both are answered 200 with the success message, not 404; the
store is unchanged. -/
theorem update_of_missing_project_answers_success :
    Project.findById sampleStore.projects "p404" = none ∧
      (serve sampleEnv sampleFresh .updateStatus sampleStore sampleMissingStatusReq).response =
        some ⟨200, .message "Project status updated successfully"⟩ ∧
      (serve sampleEnv sampleFresh .updateStatus sampleStore sampleMissingStatusReq).store =
        sampleStore ∧
      (serve sampleEnv sampleFresh .unassign sampleStore sampleMissingUnassignReq).response =
        some ⟨200, .message "User removed from project successfully"⟩ ∧
      (serve sampleEnv sampleFresh .unassign sampleStore sampleMissingUnassignReq).store =
        sampleStore := by
  refine ⟨?_, ?_, ?_, ?_, ?_⟩ <;> decide

/-! ## Deleting a document -/

/-- With unique ids, erasing the first row of an id removes every row of that id and keeps
the others in place. -/
theorem eraseP_id_eq_filter (documents : List Document) (id : String)
    (huniq : (documents.map (fun d => d._id)).Nodup) :
    documents.eraseP (fun d => d._id == id) = documents.filter (fun d => d._id != id) := by
  induction documents with
  | nil => rfl
  | cons x xs ih =>
    simp only [List.map_cons, List.nodup_cons, List.mem_map, not_exists, not_and] at huniq
    by_cases hx : x._id = id
    · have hrest : xs.filter (fun d => d._id != id) = xs := by
        rw [List.filter_eq_self]
        intro d hd
        have hne : d._id ≠ x._id := huniq.1 d hd
        simpa [hx] using hne
      simp [hx, hrest]
    · simp [hx, ih huniq.2]

/-- C22 (as amended): for a caller whose role is admin or project_lead. A document id that
is not a well-formed id is answered 500 `Server error` and leaves the store unchanged. A
well-formed id that no row carries is answered 404 `Document not found` and leaves the
store unchanged. A well-formed id that a row carries (ids being unique) is answered 200
and removes that row and no other, rows of other ids staying in place, users and
projects staying as they are. The upload directory does not enter the answer: the
statement holds for every content of `files`, with the file present or absent. -/
theorem deleteDocument_removes_exactly_one (env : Env) (fresh : Fresh) (s : Store)
    (req : Req) (token : String) (caller : Identity)
    (htok : extractToken req.authorization = some token) (hne : token ≠ "")
    (hver : env.verify token = .ok caller)
    (hrole : caller.role = "admin" ∨ caller.role = "project_lead") :
    (env.castObjectId req.params.documentId = none →
        (serve env fresh .deleteDocument s req).response =
            some ⟨500, .error "Server error"⟩ ∧
          (serve env fresh .deleteDocument s req).store = s) ∧
    (∀ id : String, env.castObjectId req.params.documentId = some id →
      ((∀ d ∈ s.documents, d._id ≠ id) →
        (serve env fresh .deleteDocument s req).response =
            some ⟨404, .error "Document not found"⟩ ∧
          (serve env fresh .deleteDocument s req).store = s) ∧
      ((∃ d ∈ s.documents, d._id = id) →
        (s.documents.map (fun d => d._id)).Nodup →
        (serve env fresh .deleteDocument s req).response =
            some ⟨200, .message "Document deleted successfully"⟩ ∧
          (serve env fresh .deleteDocument s req).store.documents =
            s.documents.filter (fun d => d._id != id) ∧
          (∀ d ∈ s.documents, d._id ≠ id →
            d ∈ (serve env fresh .deleteDocument s req).store.documents) ∧
          (∀ d ∈ (serve env fresh .deleteDocument s req).store.documents, d._id ≠ id) ∧
          (serve env fresh .deleteDocument s req).store.users = s.users ∧
          (serve env fresh .deleteDocument s req).store.projects = s.projects)) := by
  have hallow : caller.role ∈ ["admin", "project_lead"] := by
    rcases hrole with h | h <;> simp [h]
  have hrun := runChain_role_pass env fresh (deleteDocumentHandler env)
    ["admin", "project_lead"] s req token caller htok hne hver hallow
  have hserve : serve env fresh .deleteDocument s req =
      { store := (deleteDocumentHandler env s { req with user := some caller }).1,
        response := some (deleteDocumentHandler env s { req with user := some caller }).2,
        handlerRan := true, verified := [token] } := by
    simp [serve, Route.gates, Route.handler, hrun]
  rw [hserve]
  refine ⟨?_, ?_⟩
  · intro hcast
    simp [deleteDocumentHandler, hcast, serverError]
  · intro id hcast
    constructor
    · intro hnone
      have hfind : List.find? (fun d => d._id == id) s.documents = none := by
        rw [List.find?_eq_none]
        intro d hd
        simpa using hnone d hd
      simp [deleteDocumentHandler, hcast, hfind]
    · rintro ⟨d0, hd0, hid0⟩ huniq
      cases hfind : List.find? (fun d => d._id == id) s.documents with
      | none =>
        have := List.find?_eq_none.mp hfind d0 hd0
        simp [hid0] at this
      | some found =>
        have herase := eraseP_id_eq_filter s.documents id huniq
        have hdocs :
            (deleteDocumentHandler env s { req with user := some caller }).1.documents =
              s.documents.filter (fun d => d._id != id) := by
          simp [deleteDocumentHandler, hcast, hfind, herase]
        refine ⟨by simp [deleteDocumentHandler, hcast, hfind], hdocs, ?_, ?_, ?_, ?_⟩
        · intro d hd hne2
          show d ∈ (deleteDocumentHandler env s { req with user := some caller }).1.documents
          rw [hdocs]
          simp [hd, hne2]
        · intro d hd
          have hd2 :
              d ∈ (deleteDocumentHandler env s { req with user := some caller }).1.documents :=
            hd
          rw [hdocs] at hd2
          simpa using (List.mem_filter.mp hd2).2
        · simp [deleteDocumentHandler, hcast, hfind]
        · simp [deleteDocumentHandler, hcast, hfind]

/-- Witness for C22: the admin deletes document `d1`, the only row, and the collection is
empty afterwards. -/
theorem deleteDocument_removes_exactly_one_witness :
    sampleEnv.castObjectId (sampleDeleteReq "tok-admin").params.documentId = some "d1" ∧
      (serve sampleEnv sampleFresh .deleteDocument sampleStoreWithDocument
        (sampleDeleteReq "tok-admin")).response =
        some ⟨200, .message "Document deleted successfully"⟩ ∧
      (serve sampleEnv sampleFresh .deleteDocument sampleStoreWithDocument
        (sampleDeleteReq "tok-admin")).store.documents =
        sampleStoreWithDocument.documents.filter (fun d => d._id != "d1") :=
  match ((deleteDocument_removes_exactly_one sampleEnv sampleFresh sampleStoreWithDocument
      (sampleDeleteReq "tok-admin") "tok-admin"
      { id := "u1", username := "admin", role := "admin" }
      (by decide) (by decide) (by simp [sampleEnv]) (Or.inl rfl)).2 "d1" (by decide)).2
      ⟨_, List.mem_cons_self _ _, rfl⟩ (by decide) with
  | ⟨hresp, hdocs, _⟩ => ⟨by decide, hresp, hdocs⟩

/-- Counterexample for C22: the admin sends `DELETE /api/documents/not-an-object-id` to
the sample store with one document. No row carries that id, the text is not a
well-formed id, and the answer is 500 `Server error`, not 404 `Document not found`; the
store is unchanged. -/
theorem deleteDocument_malformed_id_answers_500 :
    (∀ d ∈ sampleStoreWithDocument.documents, d._id ≠ "not-an-object-id") ∧
      sampleEnv.castObjectId "not-an-object-id" = none ∧
      (serve sampleEnv sampleFresh .deleteDocument sampleStoreWithDocument
        sampleMalformedDeleteReq).response = some ⟨500, .error "Server error"⟩ ∧
      (serve sampleEnv sampleFresh .deleteDocument sampleStoreWithDocument
        sampleMalformedDeleteReq).response ≠ some ⟨404, .error "Document not found"⟩ ∧
      (serve sampleEnv sampleFresh .deleteDocument sampleStoreWithDocument
        sampleMalformedDeleteReq).store = sampleStoreWithDocument := by
  refine ⟨by decide, by decide, by decide, by decide, by decide⟩

/-! ## Creating a user -/

/-- A request whose role is a known one and whose username or email is taken is reported
as a duplicate-key conflict by the modelled user collection. -/
theorem User.save_duplicate (env : Env) (fresh : Fresh) (users : List User) (b : ReqBody)
    (hrole : b.role ∈ knownRoles)
    (hdup : ∃ u ∈ users, u.username = b.username ∨ u.email = b.email) :
    User.save env fresh users b = .error .duplicateKey := by
  obtain ⟨u, hu, hor⟩ := hdup
  have hany : users.any (fun u => u._id == fresh.oid || u.username == b.username ||
      u.email == b.email) = true := by
    rw [List.any_eq_true]
    refine ⟨u, hu, ?_⟩
    rcases hor with h | h <;> simp [h]
  simp [User.save, hrole, hany]

/-- C23: for a caller with role admin, when saving the new user fails with the
duplicate-key code 11000 the answer is 400 `Username or email already exists`, when it
fails otherwise the answer is 500 `Server error`, and in both cases the store is
unchanged. A request with a known role whose username or email equals that of a stored
user does fail with the duplicate-key code. -/
theorem createUser_conflict_answers (env : Env) (fresh : Fresh) (s : Store) (req : Req)
    (token : String) (caller : Identity)
    (htok : extractToken req.authorization = some token) (hne : token ≠ "")
    (hver : env.verify token = .ok caller) (hrole : caller.role = "admin") :
    (User.save env fresh s.users req.body = .error .duplicateKey →
        (serve env fresh .createUser s req).response =
            some ⟨400, .error "Username or email already exists"⟩ ∧
          (serve env fresh .createUser s req).store = s) ∧
    (User.save env fresh s.users req.body = .error .other →
        (serve env fresh .createUser s req).response = some ⟨500, .error "Server error"⟩ ∧
          (serve env fresh .createUser s req).store = s) ∧
    (req.body.role ∈ knownRoles →
        (∃ u ∈ s.users, u.username = req.body.username ∨ u.email = req.body.email) →
        (serve env fresh .createUser s req).response =
            some ⟨400, .error "Username or email already exists"⟩ ∧
          (serve env fresh .createUser s req).store = s) := by
  have hrun := runChain_role_pass env fresh (createUserHandler env fresh) ["admin"] s req
    token caller htok hne hver (by simp [hrole])
  have hserve : serve env fresh .createUser s req =
      { store := (createUserHandler env fresh s { req with user := some caller }).1,
        response := some (createUserHandler env fresh s { req with user := some caller }).2,
        handlerRan := true, verified := [token] } := by
    simp [serve, Route.gates, Route.handler, hrun]
  rw [hserve]
  have hdupcase : User.save env fresh s.users req.body = .error .duplicateKey →
      (some (createUserHandler env fresh s { req with user := some caller }).2 =
          some ⟨400, .error "Username or email already exists"⟩) ∧
        (createUserHandler env fresh s { req with user := some caller }).1 = s := by
    intro h
    simp [createUserHandler, h]
  refine ⟨hdupcase, ?_, ?_⟩
  · intro h
    simp [createUserHandler, h, serverError]
  · intro hknown hdup
    exact hdupcase (User.save_duplicate env fresh s.users req.body hknown hdup)

/-- Witness for C23: the admin creates a user with the username of the stored user
`dana`. -/
theorem createUser_conflict_answers_witness :
    (serve sampleEnv sampleFresh .createUser sampleStore sampleDuplicateUserReq).response =
        some ⟨400, .error "Username or email already exists"⟩ ∧
      (serve sampleEnv sampleFresh .createUser sampleStore sampleDuplicateUserReq).store =
        sampleStore :=
  (createUser_conflict_answers sampleEnv sampleFresh sampleStore sampleDuplicateUserReq
    "tok-admin" { id := "u1", username := "admin", role := "admin" }
    (by decide) (by decide) (by simp [sampleEnv]) rfl).2.2
    (by decide) (by simp [sampleStore, sampleDuplicateUserReq])

/-! ## No response carries a password hash -/

/-- A selection that does not keep `password` serialises users without it. -/
theorem User.select_password (sel : Selection) (u : User)
    (h : sel.keeps "password" = false) : (User.select sel u).password = none := by
  simp [User.select, h]

/-- A populated reference under a selection that does not keep `password` has none. -/
theorem populateOne_password (users : List User) (sel : Selection) (id : String)
    (h : sel.keeps "password" = false) :
    ∀ v ∈ (populateOne users sel id).toList, v.password = none := by
  intro v hv
  rw [Option.mem_toList] at hv
  simp only [populateOne, Option.mem_def, Option.map_eq_some'] at hv
  obtain ⟨u, -, rfl⟩ := hv
  exact User.select_password sel u h

/-- A populated reference array under a selection that does not keep `password` has
none. -/
theorem populateMany_password (users : List User) (sel : Selection) (ids : List String)
    (h : sel.keeps "password" = false) :
    ∀ v ∈ populateMany users sel ids, v.password = none := by
  intro v hv
  simp only [populateMany, List.mem_filterMap] at hv
  obtain ⟨id, -, hid⟩ := hv
  exact populateOne_password users sel id h v (by rw [Option.mem_toList]; exact hid)

/-- A serialised project under selections that do not keep `password` carries none. -/
theorem Project.view_password (users : List User) (creatorSel memberSel : Selection)
    (p : Project) (h1 : creatorSel.keeps "password" = false)
    (h2 : memberSel.keeps "password" = false) :
    ∀ v ∈ (Project.view users creatorSel memberSel p).userViews, v.password = none := by
  intro v hv
  simp only [ProjectView.userViews, Project.view, List.mem_append] at hv
  rcases hv with hv | hv
  · exact populateOne_password users creatorSel p.createdBy h1 v hv
  · exact populateMany_password users memberSel p.teamMembers h2 v hv

/-- No route handler answers with a user object that carries a password. -/
theorem Route.handler_password (env : Env) (fresh : Fresh) (route : Route) (s : Store)
    (req : Req) : ∀ v ∈ (route.handler env fresh s req).2.body.userViews,
      v.password = none := by
  intro v hv
  cases route with
  | login =>
    simp only [Route.handler, loginHandler] at hv
    split at hv
    · simp [Payload.userViews] at hv
    · split at hv <;> simp [Payload.userViews] at hv
  | listUsers =>
    simp only [Route.handler, listUsersHandler, Payload.userViews, List.mem_map] at hv
    obtain ⟨u, -, rfl⟩ := hv
    exact User.select_password _ u (by decide)
  | createUser =>
    simp only [Route.handler, createUserHandler] at hv
    split at hv <;> simp [Payload.userViews, serverError] at hv
  | listProjects =>
    simp only [Route.handler, listProjectsHandler] at hv
    split at hv
    · simp [Payload.userViews, serverError] at hv
    · simp only [Payload.userViews, List.mem_flatMap, List.mem_map] at hv
      obtain ⟨pv, ⟨p, -, rfl⟩, hvp⟩ := hv
      exact Project.view_password _ _ _ p (by decide) (by decide) v hvp
  | createProject =>
    simp only [Route.handler, createProjectHandler] at hv
    split at hv
    · simp [Payload.userViews, serverError] at hv
    · split at hv <;> simp [Payload.userViews, serverError] at hv
  | updateStatus =>
    simp [Route.handler, updateStatusHandler, Payload.userViews] at hv
  | listAssignments =>
    simp only [Route.handler, listAssignmentsHandler] at hv
    split at hv
    · simp [Payload.userViews] at hv
    · exact populateMany_password _ _ _ (by decide) v hv
  | assign =>
    simp only [Route.handler, assignHandler] at hv
    split at hv
    · simp [Payload.userViews] at hv
    · split at hv
      · simp [Payload.userViews] at hv
      · split at hv <;> simp [Payload.userViews, serverError] at hv
  | unassign =>
    simp only [Route.handler, unassignHandler] at hv
    split at hv <;> simp [Payload.userViews, serverError] at hv
  | listDocuments =>
    simp only [Route.handler, listDocumentsHandler, Payload.userViews, List.mem_flatMap,
      List.mem_map] at hv
    obtain ⟨dv, ⟨d, -, rfl⟩, hvd⟩ := hv
    exact populateOne_password _ _ d.uploadedBy (by decide) v hvd
  | uploadDocument =>
    simp only [Route.handler, uploadDocumentHandler] at hv
    split at hv
    · simp [Payload.userViews] at hv
    · split at hv
      · simp [Payload.userViews, serverError] at hv
      · split at hv <;> simp [Payload.userViews, serverError] at hv
  | deleteDocument =>
    simp only [Route.handler, deleteDocumentHandler] at hv
    split at hv
    · simp [Payload.userViews, serverError] at hv
    · split at hv <;> simp [Payload.userViews] at hv
  | availableUsers =>
    simp only [Route.handler, availableUsersHandler, Payload.userViews, List.mem_map] at hv
    obtain ⟨u, -, rfl⟩ := hv
    exact User.select_password _ u (by decide)
  | projectDetails =>
    simp only [Route.handler, projectDetailsHandler] at hv
    split at hv
    · simp [Payload.userViews] at hv
    · exact Project.view_password _ _ _ _ (by decide) (by decide) v hv

/-- What a middleware sends is an error payload, which carries no user object. -/
theorem gate_run_sent (env : Env) (fresh : Fresh) (g : Gate) (s : Store) (req : Req)
    (r : Response) (h : (g.run env fresh s req).sent = some r) : r.body.userViews = [] := by
  cases g with
  | authenticateToken =>
    simp only [Gate.run, authenticateToken] at h
    split at h
    · simp only [Effect.respond, Option.some.injEq] at h; subst h; rfl
    · split at h
      · simp only [Effect.respond, Option.some.injEq] at h; subst h; rfl
      · split at h
        · simp only [Effect.respond, Option.some.injEq] at h; subst h; rfl
        · simp [Effect.callNext] at h
  | requireRole roles =>
    simp only [Gate.run, requireRole] at h
    split at h
    · simp only [Effect.respond, Option.some.injEq] at h; subst h; rfl
    · split at h
      · simp only [Effect.respond, Option.some.injEq] at h; subst h; rfl
      · simp [Effect.callNext] at h
  | requireProjectAccess =>
    simp only [Gate.run, requireProjectAccess] at h
    split at h
    · simp only [Effect.respond, Option.some.injEq] at h; subst h; rfl
    · split at h
      · simp only [Effect.respond, Option.some.injEq] at h; subst h; rfl
      · split at h
        · simp only [Effect.respond, Option.some.injEq] at h; subst h; rfl
        · simp [Effect.callNext] at h
  | uploadSingle =>
    simp only [Gate.run, uploadSingle] at h
    split at h
    · simp [Effect.callNext] at h
    · split at h
      · simp only [Effect.respond, Option.some.injEq] at h; subst h; rfl
      · split at h
        · simp only [Effect.respond, Option.some.injEq] at h; subst h; rfl
        · split at h
          · simp only [Effect.respond, Option.some.injEq] at h; subst h; rfl
          · simp [Effect.callNext] at h

/-- A property of the payload that holds for what the handler answers and for payloads
without user objects holds for the response of the whole chain. -/
theorem runChain_response_password (env : Env) (fresh : Fresh)
    (handler : Store → Req → Store × Response)
    (hh : ∀ s req, ∀ v ∈ (handler s req).2.body.userViews, v.password = none)
    (gates : List Gate) (s : Store) (req : Req) (r : Response)
    (h : (runChain env fresh handler gates s req).response = some r) :
    ∀ v ∈ r.body.userViews, v.password = none := by
  induction gates generalizing s req with
  | nil =>
    simp only [runChain, Option.some.injEq] at h
    subst h
    exact hh s req
  | cons g gs ih =>
    simp only [runChain] at h
    split at h
    · have := gate_run_sent env fresh g s req r h
      intro v hv
      rw [this] at hv
      cases hv
    · exact ih _ _ h

/-- C24: no user object in any response carries the password hash. For every route, store
and request, every user object in the response payload (the users of `GET /api/users` and
`GET /api/users/available`, the populated creator, member and uploader references of
project and document answers) has no `password` field; the user object of a login answer
consists of id, username, email and role only. -/
theorem responses_carry_no_password (env : Env) (fresh : Fresh) (route : Route) (s : Store)
    (req : Req) (r : Response) (h : (serve env fresh route s req).response = some r) :
    ∀ v ∈ r.body.userViews, v.password = none :=
  runChain_response_password env fresh (route.handler env fresh)
    (fun s2 req2 => Route.handler_password env fresh route s2 req2) route.gates s req r h

/-- Witness for C24: the admin lists the three users of the sample store; none of the
three user objects carries a password. -/
theorem responses_carry_no_password_witness :
    (serve sampleEnv sampleFresh .listUsers sampleStore sampleListUsersReq).response =
        some ⟨200, .users ((sortUsersNewestFirst sampleStore.users).map
          (User.select (.exclusive ["password"])))⟩ ∧
      ((sortUsersNewestFirst sampleStore.users).map
        (User.select (.exclusive ["password"]))).length = 3 ∧
      ∀ v ∈ (Payload.users ((sortUsersNewestFirst sampleStore.users).map
        (User.select (.exclusive ["password"])))).userViews, v.password = none :=
  ⟨by decide, by decide,
    responses_carry_no_password sampleEnv sampleFresh .listUsers sampleStore
      sampleListUsersReq
      ⟨200, .users ((sortUsersNewestFirst sampleStore.users).map
        (User.select (.exclusive ["password"])))⟩ (by decide)⟩

/-! ## Who may create a project -/

/-- C25: evaluation of `POST /api/projects` with a valid body, sent by the project lead
`u3` to the sample store: the answer is 403 `Insufficient permissions`, the handler does
not run and no project is created. -/
theorem createProject_by_project_lead_rejected :
    sampleEnv.verify "tok-lead" =
        .ok { id := "u3", username := "lee", role := "project_lead" } ∧
      (serve sampleEnv sampleFresh .createProject sampleStore sampleLeadCreateReq).response =
        some ⟨403, .error "Insufficient permissions"⟩ ∧
      (serve sampleEnv sampleFresh .createProject sampleStore sampleLeadCreateReq).handlerRan =
        false ∧
      (serve sampleEnv sampleFresh .createProject sampleStore sampleLeadCreateReq).store =
        sampleStore ∧
      (serve sampleEnv sampleFresh .createProject sampleStore sampleCreateReq).response =
        some ⟨201, .projectCreated "Project created successfully" "p9"⟩ := by
  refine ⟨by simp [sampleEnv], ?_, ?_, ?_, ?_⟩ <;> decide

/-! ## The assignable users -/

/-- Sorting by username gives a rearrangement that is ordered by username, ascending. -/
theorem sortUsersByUsername_spec (us : List User) :
    (sortUsersByUsername us).Perm us ∧
      (sortUsersByUsername us).Sorted (fun a b => a.username ≤ b.username) := by
  haveI : IsTotal User (fun a b => a.username ≤ b.username) :=
    ⟨fun a b => le_total a.username b.username⟩
  haveI : IsTrans User (fun a b => a.username ≤ b.username) :=
    ⟨fun _ _ _ hab hbc => le_trans hab hbc⟩
  exact ⟨List.perm_insertionSort _ us, List.sorted_insertionSort _ us⟩

/-- C26: for a caller with role admin or project_lead, `GET /api/users/available` answers
200 with the serialisation of a list that is a rearrangement of exactly the stored users
whose role is `developer`, ordered by username ascending; each entry carries the id,
username, email and role of its user and nothing else. -/
theorem availableUsers_lists_developers (env : Env) (fresh : Fresh) (s : Store) (req : Req)
    (token : String) (caller : Identity)
    (htok : extractToken req.authorization = some token) (hne : token ≠ "")
    (hver : env.verify token = .ok caller)
    (hrole : caller.role = "admin" ∨ caller.role = "project_lead") :
    ∃ us : List User,
      (serve env fresh .availableUsers s req).response =
        some ⟨200, .users (us.map (fun u =>
          ({ _id := u._id, username := some u.username, email := some u.email,
             password := none, role := some u.role, createdAt := none } : UserView)))⟩ ∧
      us.Perm (s.users.filter (fun u => u.role == "developer")) ∧
      (∀ u, u ∈ us ↔ (u ∈ s.users ∧ u.role = "developer")) ∧
      us.Sorted (fun a b => a.username ≤ b.username) := by
  have hallow : caller.role ∈ ["admin", "project_lead"] := by
    rcases hrole with h | h <;> simp [h]
  have hrun := runChain_role_pass env fresh availableUsersHandler ["admin", "project_lead"]
    s req token caller htok hne hver hallow
  have hspec := sortUsersByUsername_spec (s.users.filter (fun u => u.role == "developer"))
  refine ⟨sortUsersByUsername (s.users.filter (fun u => u.role == "developer")), ?_,
    hspec.1, ?_, hspec.2⟩
  · have hsel : User.select (.inclusive ["username", "email", "role"]) = fun u =>
        ({ _id := u._id, username := some u.username, email := some u.email,
           password := none, role := some u.role, createdAt := none } : UserView) := by
      funext u
      simp [User.select, Selection.keeps]
    simp [serve, Route.gates, Route.handler, hrun, availableUsersHandler, hsel]
  · intro u
    rw [hspec.1.mem_iff]
    simp [List.mem_filter]

/-- Witness for C26: the project lead asks for the assignable users of the sample store
and gets the one developer, `dana`. -/
theorem availableUsers_lists_developers_witness :
    ∃ us : List User,
      (serve sampleEnv sampleFresh .availableUsers sampleStore sampleAvailableReq).response =
        some ⟨200, .users (us.map (fun u =>
          ({ _id := u._id, username := some u.username, email := some u.email,
             password := none, role := some u.role, createdAt := none } : UserView)))⟩ ∧
      us.Perm (sampleStore.users.filter (fun u => u.role == "developer")) ∧
      (∀ u, u ∈ us ↔ (u ∈ sampleStore.users ∧ u.role = "developer")) ∧
      us.Sorted (fun a b => a.username ≤ b.username) :=
  availableUsers_lists_developers sampleEnv sampleFresh sampleStore sampleAvailableReq
    "tok-lead" { id := "u3", username := "lee", role := "project_lead" }
    (by decide) (by decide) (by simp [sampleEnv]) (Or.inr rfl)

/-! ## Listed projects are accessible projects -/

/-- The answer of `GET /api/projects` to a verified caller, written out. -/
theorem serve_listProjects (env : Env) (fresh : Fresh) (s : Store) (req : Req)
    (token : String) (user : Identity)
    (htok : extractToken req.authorization = some token) (hne : token ≠ "")
    (hver : env.verify token = .ok user) :
    (serve env fresh .listProjects s req).response =
      some ⟨200, .projects ((sortProjectsNewestFirst
        (if user.role == "admin" then s.projects
         else if user.role == "project_lead" then
           s.projects.filter (fun p => p.createdBy == user.id)
         else s.projects.filter (fun p => p.teamMembers.contains user.id))).map
        (Project.view s.users (.inclusive ["username"]) (.inclusive ["username"])))⟩ := by
  have hrun := runChain_auth_pass env fresh listProjectsHandler s req token user htok hne hver
  simp [serve, Route.gates, Route.handler, hrun, listProjectsHandler]

/-- C27: every project that `GET /api/projects` returns to an authenticated caller is a
stored project to which the access expression of `requireProjectAccess` grants that
caller access; with unique project ids, `requireProjectAccess` on a request of that
caller for that project calls `next` and sends nothing. -/
theorem listed_projects_are_accessible (env : Env) (fresh : Fresh) (s : Store) (req : Req)
    (token : String) (user : Identity)
    (htok : extractToken req.authorization = some token) (hne : token ≠ "")
    (hver : env.verify token = .ok user) :
    ∃ ps : List Project,
      (serve env fresh .listProjects s req).response =
        some ⟨200, .projects (ps.map
          (Project.view s.users (.inclusive ["username"]) (.inclusive ["username"])))⟩ ∧
      ∀ P ∈ ps, P ∈ s.projects ∧ hasAccess user P = true ∧
        ((s.projects.map (fun p => p._id)).Nodup →
          ∀ req2 : Req, req2.user = some user → req2.params.projectId = P._id →
            (requireProjectAccess s req2).nextCalls = 1 ∧
              (requireProjectAccess s req2).sent = none) := by
  refine ⟨_, serve_listProjects env fresh s req token user htok hne hver, ?_⟩
  intro P hP
  have hP2 := (sortProjectsNewestFirst_spec _).1.mem_iff.mp hP
  have hfacts : P ∈ s.projects ∧ hasAccess user P = true := by
    by_cases ha : user.role = "admin"
    · simp only [ha, beq_self_eq_true, if_true] at hP2
      exact ⟨hP2, (hasAccess_iff user P).mpr (Or.inl ha)⟩
    · by_cases hl : user.role = "project_lead"
      · have hmem : P ∈ s.projects.filter (fun p => p.createdBy == user.id) := by
          simpa [ha, hl] using hP2
        rw [List.mem_filter] at hmem
        exact ⟨hmem.1, (hasAccess_iff user P).mpr (Or.inr (Or.inl (by simpa using hmem.2)))⟩
      · have hmem : P ∈ s.projects.filter (fun p => p.teamMembers.contains user.id) := by
          simpa [ha, hl] using hP2
        rw [List.mem_filter] at hmem
        exact ⟨hmem.1, (hasAccess_iff user P).mpr (Or.inr (Or.inr (by simpa using hmem.2)))⟩
  refine ⟨hfacts.1, hfacts.2, ?_⟩
  intro huniq req2 huser hid
  have hfind : Project.findById s.projects req2.params.projectId = some P := by
    rw [hid]; exact Project.findById_of_mem hfacts.1 huniq
  have hrun : requireProjectAccess s req2 = Effect.callNext req2 s [] := by
    simp [requireProjectAccess, huser, hfind, hfacts.2]
  rw [hrun]
  exact ⟨rfl, rfl⟩

/-- Witness for C27: the developer `u2` lists the projects of the sample store. -/
theorem listed_projects_are_accessible_witness :
    ∃ ps : List Project,
      (serve sampleEnv sampleFresh .listProjects sampleStore sampleDevListReq).response =
        some ⟨200, .projects (ps.map
          (Project.view sampleStore.users (.inclusive ["username"])
            (.inclusive ["username"])))⟩ ∧
      ∀ P ∈ ps, P ∈ sampleStore.projects ∧
        hasAccess { id := "u2", username := "dana", role := "developer" } P = true ∧
        ((sampleStore.projects.map (fun p => p._id)).Nodup →
          ∀ req2 : Req,
            req2.user = some { id := "u2", username := "dana", role := "developer" } →
            req2.params.projectId = P._id →
            (requireProjectAccess sampleStore req2).nextCalls = 1 ∧
              (requireProjectAccess sampleStore req2).sent = none) :=
  listed_projects_are_accessible sampleEnv sampleFresh sampleStore sampleDevListReq "tok-dev"
    { id := "u2", username := "dana", role := "developer" }
    (by decide) (by decide) (by simp [sampleEnv])

/-! ## How the token is taken from the Authorization header -/

/-- Splitting a text without the separator gives the text as the only piece. -/
theorem splitChars_of_not_mem (sep : Char) (l : List Char) (h : sep ∉ l) :
    splitChars sep l = [l] := by
  induction l with
  | nil => rfl
  | cons c cs ih =>
    have hc : c ≠ sep := fun heq => h (by rw [heq]; exact List.mem_cons_self _ _)
    have hcs : sep ∉ cs := fun hin => h (List.mem_cons_of_mem _ hin)
    simp [splitChars, hc, ih hcs]

/-- Splitting at the first separator: the text before it is the first piece. -/
theorem splitChars_append (sep : Char) (a b : List Char) (h : sep ∉ a) :
    splitChars sep (a ++ sep :: b) = a :: splitChars sep b := by
  induction a with
  | nil => simp [splitChars]
  | cons c cs ih =>
    have hc : c ≠ sep := fun heq => h (by rw [heq]; exact List.mem_cons_self _ _)
    have hcs : sep ∉ cs := fun hin => h (List.mem_cons_of_mem _ hin)
    simp [splitChars, hc, ih hcs]

/-- The token of a header made of a scheme word, one space and a token word. -/
theorem extractToken_scheme_token (scheme token : String)
    (hs : ' ' ∉ scheme.data) (ht : ' ' ∉ token.data) :
    extractToken (some (scheme ++ " " ++ token)) = some token := by
  have hdata : (scheme ++ " " ++ token).data = scheme.data ++ ' ' :: token.data := by
    simp [String.data_append]
  have hne : scheme ++ " " ++ token ≠ "" := by
    intro h
    have := congrArg String.data h
    rw [hdata] at this
    simp at this
  simp [extractToken, hne, hdata, splitChars_append _ _ _ hs,
    splitChars_of_not_mem _ _ ht]

/-- C29: `authenticateToken` verifies the second piece of the Authorization header split
on single spaces, whatever the first piece is. For every scheme word and every non-empty
token, both without spaces, the header made of scheme, one space and token has exactly
that token verified, and the outcome is the one of the header `Bearer` plus token. A
header without a space, a header with nothing after its first space, and a header with
two spaces after the scheme word are answered 401 and nothing is verified. -/
theorem authenticateToken_ignores_scheme (env : Env) (s : Store) (req : Req)
    (scheme token rest : String) (hs : ' ' ∉ scheme.data) (ht : ' ' ∉ token.data)
    (hne : token ≠ "") :
    (authenticateToken env s
        { req with authorization := some (scheme ++ " " ++ token) }).verified = [token] ∧
    (authenticateToken env s
        { req with authorization := some (scheme ++ " " ++ token) }).sent =
      (authenticateToken env s
        { req with authorization := some ("Bearer " ++ token) }).sent ∧
    (authenticateToken env s
        { req with authorization := some (scheme ++ " " ++ token) }).nextCalls =
      (authenticateToken env s
        { req with authorization := some ("Bearer " ++ token) }).nextCalls ∧
    ((authenticateToken env s { req with authorization := some scheme }).sent =
        some ⟨401, .error "Access token required"⟩ ∧
      (authenticateToken env s { req with authorization := some scheme }).verified = []) ∧
    ((authenticateToken env s { req with authorization := some (scheme ++ " ") }).sent =
        some ⟨401, .error "Access token required"⟩ ∧
      (authenticateToken env s
        { req with authorization := some (scheme ++ " ") }).verified = []) ∧
    ((authenticateToken env s
        { req with authorization := some (scheme ++ "  " ++ rest) }).sent =
        some ⟨401, .error "Access token required"⟩ ∧
      (authenticateToken env s
        { req with authorization := some (scheme ++ "  " ++ rest) }).verified = []) := by
  have h1 : extractToken (some (scheme ++ " " ++ token)) = some token :=
    extractToken_scheme_token scheme token hs ht
  have h2 : extractToken (some ("Bearer " ++ token)) = some token := by
    have := extractToken_scheme_token "Bearer" token (by decide) ht
    simpa using this
  have h3 : extractToken (some scheme) = none ∨ extractToken (some scheme) = some "" := by
    by_cases he : scheme = ""
    · right; simp [extractToken, he]
    · left; simp [extractToken, he, splitChars_of_not_mem _ _ hs]
  have h4 : extractToken (some (scheme ++ " ")) = some "" := by
    have hdata : (scheme ++ " ").data = scheme.data ++ ' ' :: [] := by
      simp [String.data_append]
    have hne2 : scheme ++ " " ≠ "" := by
      intro h
      have := congrArg String.data h
      rw [hdata] at this
      simp at this
    simp [extractToken, hne2, hdata, splitChars_append _ _ _ hs, splitChars]
  have h5 : extractToken (some (scheme ++ "  " ++ rest)) = some "" := by
    have hdata : (scheme ++ "  " ++ rest).data = scheme.data ++ ' ' :: (' ' :: rest.data) := by
      simp [String.data_append]
    have hne2 : scheme ++ "  " ++ rest ≠ "" := by
      intro h
      have := congrArg String.data h
      rw [hdata] at this
      simp at this
    simp [extractToken, hne2, hdata, splitChars_append _ _ _ hs, splitChars]
  refine ⟨?_, ?_, ?_, ⟨?_, ?_⟩, ⟨?_, ?_⟩, ⟨?_, ?_⟩⟩
  · cases hv : env.verify token <;>
      simp [authenticateToken, h1, hne, hv, Effect.respond, Effect.callNext]
  · cases hv : env.verify token <;>
      simp [authenticateToken, h1, h2, hne, hv, Effect.respond, Effect.callNext]
  · cases hv : env.verify token <;>
      simp [authenticateToken, h1, h2, hne, hv, Effect.respond, Effect.callNext]
  · rcases h3 with h | h <;> simp [authenticateToken, h, Effect.respond]
  · rcases h3 with h | h <;> simp [authenticateToken, h, Effect.respond]
  · simp [authenticateToken, h4, Effect.respond]
  · simp [authenticateToken, h4, Effect.respond]
  · simp [authenticateToken, h5, Effect.respond]
  · simp [authenticateToken, h5, Effect.respond]

/-- Witness for C29: the header `Basic tok-admin` has the token `tok-admin` verified. -/
theorem authenticateToken_ignores_scheme_witness :
    (authenticateToken sampleEnv sampleStore
        { ({} : Req) with authorization := some ("Basic" ++ " " ++ "tok-admin") }).verified =
      ["tok-admin"] :=
  (authenticateToken_ignores_scheme sampleEnv sampleStore {} "Basic" "tok-admin" "tok-admin"
    (by decide) (by decide) (by decide)).1

/-! ## Removal undoes assignment -/

/-- An update that maps the addressed element to itself changes nothing. -/
theorem updateFirst_eq_self {α : Type} (p : α → Bool) (f : α → α) (l : List α)
    (h : ∀ x, l.find? p = some x → f x = x) : updateFirst p f l = l := by
  induction l with
  | nil => rfl
  | cons a as ih =>
    by_cases hp : p a = true
    · have := h a (by simp [List.find?_cons, hp])
      simp [updateFirst, hp, this]
    · have ih2 := ih (fun x hx => h x (by simpa [List.find?_cons, hp] using hx))
      simp [updateFirst, hp, ih2]

/-- Two updates addressed to the same element act as one, when the first keeps the
element addressed. -/
theorem updateFirst_updateFirst {α : Type} (p : α → Bool) (f g : α → α) (l : List α)
    (hp : ∀ x, p x = true → p (f x) = true) :
    updateFirst p g (updateFirst p f l) = updateFirst p (fun x => g (f x)) l := by
  induction l with
  | nil => rfl
  | cons a as ih =>
    by_cases ha : p a = true
    · simp [updateFirst, ha, hp a ha]
    · simp [updateFirst, ha, ih]

/-- C30 (as amended): for an existing project `P` (with duplicate-free `teamMembers` or
not) and a user id whose text is not among them, whose cast to an id succeeds and gives
an id that is not among them either, the assignment by an allowed caller is answered
201 and appends the cast id, the removal that follows of a text with the same cast is
answered 200, and afterwards the project collection is the original one: `P.teamMembers`
has its original members in the original order and nothing else has changed. Removing a
well-formed id that is not a member of `P` is answered 200 and leaves the store
unchanged; removing a text that is not a well-formed id is answered 500 and leaves the
store unchanged. -/
theorem unassign_undoes_assign (env : Env) (f1 f2 : Fresh) (s : Store) (assignReq delReq : Req)
    (tokA tokD : String) (callerA callerD : Identity) (P : Project)
    (hA : extractToken assignReq.authorization = some tokA) (hAne : tokA ≠ "")
    (hAver : env.verify tokA = .ok callerA)
    (hArole : callerA.role = "admin" ∨ callerA.role = "project_lead")
    (hD : extractToken delReq.authorization = some tokD) (hDne : tokD ≠ "")
    (hDver : env.verify tokD = .ok callerD)
    (hDrole : callerD.role = "admin" ∨ callerD.role = "project_lead")
    (hP : Project.findById s.projects assignReq.params.projectId = some P)
    (hDpid : delReq.params.projectId = assignReq.params.projectId) :
    (∀ c : String, assignReq.body.userId ∉ P.teamMembers →
      env.castObjectId assignReq.body.userId = some c → c ∉ P.teamMembers →
      env.castObjectId delReq.params.userId = some c →
      (serve env f1 .assign s assignReq).response =
          some ⟨201, .message "User assigned to project successfully"⟩ ∧
        (Project.findById (serve env f1 .assign s assignReq).store.projects
          assignReq.params.projectId).map (fun p => p.teamMembers) =
          some (P.teamMembers ++ [c]) ∧
        (serve env f2 .unassign (serve env f1 .assign s assignReq).store delReq).response =
          some ⟨200, .message "User removed from project successfully"⟩ ∧
        (serve env f2 .unassign (serve env f1 .assign s assignReq).store
          delReq).store.projects = s.projects ∧
        (Project.findById (serve env f2 .unassign (serve env f1 .assign s assignReq).store
          delReq).store.projects assignReq.params.projectId).map (fun p => p.teamMembers) =
          some P.teamMembers) ∧
    (∀ c : String, env.castObjectId delReq.params.userId = some c → c ∉ P.teamMembers →
      (serve env f2 .unassign s delReq).response =
          some ⟨200, .message "User removed from project successfully"⟩ ∧
        (serve env f2 .unassign s delReq).store = s) ∧
    (env.castObjectId delReq.params.userId = none →
      (serve env f2 .unassign s delReq).response = some ⟨500, .error "Server error"⟩ ∧
        (serve env f2 .unassign s delReq).store = s) := by
  have hallowA : callerA.role ∈ ["admin", "project_lead"] := by
    rcases hArole with h | h <;> simp [h]
  have hallowD : callerD.role ∈ ["admin", "project_lead"] := by
    rcases hDrole with h | h <;> simp [h]
  have hfindraw : List.find? (fun p => p._id == assignReq.params.projectId) s.projects =
      some P := hP
  have hrestore : ∀ u : String, u ∉ P.teamMembers →
      ({ P with teamMembers := P.teamMembers.filter (fun m => m != u) } : Project) = P := by
    intro u hu
    have hfilter : P.teamMembers.filter (fun m => m != u) = P.teamMembers := by
      rw [List.filter_eq_self]
      intro m hm
      have hne : m ≠ u := fun h => hu (h ▸ hm)
      simpa using hne
    rw [hfilter]
  refine ⟨?_, ?_, ?_⟩
  · intro c hu hcast hc hDcast
    obtain ⟨saved, hsaved⟩ : ∃ x : Project,
        x = { P with teamMembers := P.teamMembers ++ [c] } := ⟨_, rfl⟩
    obtain ⟨ps1, hps1⟩ : ∃ x : List Project, x =
        updateFirst (fun p => p._id == assignReq.params.projectId) (fun _ => saved)
          s.projects := ⟨_, rfl⟩
    obtain ⟨s1, hs1⟩ : ∃ x : Store, x = { s with projects := ps1 } := ⟨_, rfl⟩
    have hrunA := runChain_role_pass env f1 (assignHandler env) ["admin", "project_lead"]
      s assignReq tokA callerA hA hAne hAver hallowA
    have hassign : assignHandler env s { assignReq with user := some callerA } =
        (s1, ⟨201, .message "User assigned to project successfully"⟩) := by
      simp [assignHandler, hP, hu, hcast, hs1, hps1, hsaved]
    have hserveA : serve env f1 .assign s assignReq =
        { store := s1,
          response := some ⟨201, .message "User assigned to project successfully"⟩,
          handlerRan := true, verified := [tokA] } := by
      simp [serve, Route.gates, Route.handler, hrunA, hassign]
    rw [hserveA]
    have hsavedid : saved._id = assignReq.params.projectId := by
      rw [hsaved]; exact (Project.findById_some hP).2
    have hfind1 : Project.findById s1.projects assignReq.params.projectId = some saved := by
      rw [hs1]
      show Project.findById ps1 assignReq.params.projectId = some saved
      rw [hps1, Project.findById_updateFirst_same (fun _ _ => hsavedid), hP]; rfl
    have hrunD := runChain_role_pass env f2 (unassignHandler env) ["admin", "project_lead"]
      s1 delReq tokD callerD hD hDne hDver hallowD
    have hback : ({ saved with teamMembers :=
        saved.teamMembers.filter (fun m => m != c) } : Project) = P := by
      rw [hsaved]
      have : (P.teamMembers ++ [c]).filter (fun m => m != c) = P.teamMembers := by
        rw [List.filter_append]
        have h1 : P.teamMembers.filter (fun m => m != c) = P.teamMembers := by
          rw [List.filter_eq_self]
          intro m hm
          have hne : m ≠ c := fun h => hc (h ▸ hm)
          simpa using hne
        simp [h1]
      simp only [this]
    have hresp : (unassignHandler env s1 { delReq with user := some callerD }).2 =
        ⟨200, .message "User removed from project successfully"⟩ := by
      simp [unassignHandler, hDcast]
    have hprojects :
        (unassignHandler env s1 { delReq with user := some callerD }).1.projects =
          s.projects := by
      have hstep :
          (unassignHandler env s1 { delReq with user := some callerD }).1.projects =
            updateFirst (fun p => p._id == assignReq.params.projectId)
              (fun p => { p with teamMembers := p.teamMembers.filter (fun m => m != c) })
              (updateFirst (fun p => p._id == assignReq.params.projectId) (fun _ => saved)
                s.projects) := by
        simp [unassignHandler, hDpid, hDcast, hs1, hps1]
      rw [hstep, updateFirst_updateFirst _ _ _ _ (fun _ _ => by simp [hsavedid])]
      apply updateFirst_eq_self
      intro x hx
      rw [hfindraw] at hx
      cases hx
      exact hback
    have hserveD : serve env f2 .unassign s1 delReq =
        { store := (unassignHandler env s1 { delReq with user := some callerD }).1,
          response := some ⟨200, .message "User removed from project successfully"⟩,
          handlerRan := true, verified := [tokD] } := by
      simp only [serve, Route.gates, Route.handler]
      rw [hrunD, hresp]
    rw [hserveD]
    refine ⟨rfl, ?_, rfl, hprojects, ?_⟩
    · rw [hfind1, hsaved]; rfl
    · show (Project.findById
        (unassignHandler env s1 { delReq with user := some callerD }).1.projects
        assignReq.params.projectId).map (fun p => p.teamMembers) = some P.teamMembers
      rw [hprojects, hP]; rfl
  · intro c hDcast hu
    have hrunD := runChain_role_pass env f2 (unassignHandler env) ["admin", "project_lead"]
      s delReq tokD callerD hD hDne hDver hallowD
    have hresp : (unassignHandler env s { delReq with user := some callerD }).2 =
        ⟨200, .message "User removed from project successfully"⟩ := by
      simp [unassignHandler, hDcast]
    have hprojects : (unassignHandler env s { delReq with user := some callerD }).1 = s := by
      have hself : updateFirst (fun p => p._id == assignReq.params.projectId)
          (fun p => { p with teamMembers := p.teamMembers.filter (fun m => m != c) })
          s.projects = s.projects := by
        apply updateFirst_eq_self
        intro x hx
        rw [hfindraw] at hx
        cases hx
        exact hrestore _ hu
      simp [unassignHandler, hDpid, hDcast, hself]
    have hserveD : serve env f2 .unassign s delReq =
        { store := (unassignHandler env s { delReq with user := some callerD }).1,
          response := some ⟨200, .message "User removed from project successfully"⟩,
          handlerRan := true, verified := [tokD] } := by
      simp only [serve, Route.gates, Route.handler]
      rw [hrunD, hresp]
    rw [hserveD]
    exact ⟨rfl, hprojects⟩
  · intro hDcast
    have hrunD := runChain_role_pass env f2 (unassignHandler env) ["admin", "project_lead"]
      s delReq tokD callerD hD hDne hDver hallowD
    simp [serve, Route.gates, Route.handler, hrunD, unassignHandler, hDcast, serverError]

/-- Witness for C30: in the sample store the admin assigns `u3` to project `p1` and removes
`u3` again; the project collection is the original one. -/
theorem unassign_undoes_assign_witness :
    sampleEnv.castObjectId sampleAssignLeadReq.body.userId = some "u3" ∧
      sampleEnv.castObjectId sampleUnassignReq.params.userId = some "u3" ∧
      (serve sampleEnv sampleFresh .assign sampleStore sampleAssignLeadReq).response =
        some ⟨201, .message "User assigned to project successfully"⟩ ∧
      (Project.findById (serve sampleEnv sampleFresh .assign sampleStore
        sampleAssignLeadReq).store.projects sampleAssignLeadReq.params.projectId).map
          (fun p => p.teamMembers) = some (["u2"] ++ ["u3"]) ∧
      (serve sampleEnv sampleFresh .unassign
        (serve sampleEnv sampleFresh .assign sampleStore sampleAssignLeadReq).store
        sampleUnassignReq).response =
        some ⟨200, .message "User removed from project successfully"⟩ ∧
      (serve sampleEnv sampleFresh .unassign
        (serve sampleEnv sampleFresh .assign sampleStore sampleAssignLeadReq).store
        sampleUnassignReq).store.projects = sampleStore.projects :=
  match (unassign_undoes_assign sampleEnv sampleFresh sampleFresh sampleStore
      sampleAssignLeadReq sampleUnassignReq "tok-admin" "tok-admin"
      { id := "u1", username := "admin", role := "admin" }
      { id := "u1", username := "admin", role := "admin" }
      { _id := "p1", name := "Atlas", description := "", deadline := none,
        status := "active", createdBy := "u1", teamMembers := ["u2"], createdAt := 4 }
      (by decide) (by decide) (by simp [sampleEnv]) (Or.inl rfl)
      (by decide) (by decide) (by simp [sampleEnv]) (Or.inl rfl)
      (by decide) rfl).1 "u3" (by decide) (by decide) (by decide) (by decide) with
  | ⟨h1, h2, h3, h4, _⟩ => ⟨by decide, by decide, h1, h2, h3, h4⟩

/-- Counterexample for C30: in the sample store project `p1` has the one member `u2`. The
admin removes `xyz` from `p1`: the text is not a member and not a well-formed id, and
the answer is 500 `Server error`, not the success message. The admin assigns `U2`, the
upper-case spelling of the member, which is not in the list as a text: the answer is
201 and the list is `u2, u2`; the removal of `U2` that follows is answered 200 and
leaves the list empty, not equal to its original value. -/
theorem unassign_malformed_or_respelled_id :
    (Project.findById sampleStore.projects "p1").map (fun p => p.teamMembers) =
        some ["u2"] ∧
      sampleEnv.castObjectId "xyz" = none ∧
      (serve sampleEnv sampleFresh .unassign sampleStore
        sampleMalformedUnassignReq).response = some ⟨500, .error "Server error"⟩ ∧
      (serve sampleEnv sampleFresh .unassign sampleStore
        sampleMalformedUnassignReq).store = sampleStore ∧
      sampleEnv.castObjectId "U2" = some "u2" ∧
      (serve sampleEnv sampleFresh .assign sampleStore sampleRespelledAssignReq).response =
        some ⟨201, .message "User assigned to project successfully"⟩ ∧
      (Project.findById (serve sampleEnv sampleFresh .assign sampleStore
        sampleRespelledAssignReq).store.projects "p1").map (fun p => p.teamMembers) =
        some ["u2", "u2"] ∧
      (serve sampleEnv sampleFresh .unassign
        (serve sampleEnv sampleFresh .assign sampleStore sampleRespelledAssignReq).store
        sampleRespelledUnassignReq).response =
        some ⟨200, .message "User removed from project successfully"⟩ ∧
      (Project.findById (serve sampleEnv sampleFresh .unassign
        (serve sampleEnv sampleFresh .assign sampleStore sampleRespelledAssignReq).store
        sampleRespelledUnassignReq).store.projects "p1").map (fun p => p.teamMembers) =
        some [] := by
  refine ⟨by decide, by decide, by decide, by decide, by decide, by decide, by decide,
    by decide, by decide⟩

/-! ## Creators are admins -/

/-- No middleware touches the user collection. -/
theorem gate_run_users (env : Env) (fresh : Fresh) (g : Gate) (s : Store) (req : Req) :
    (g.run env fresh s req).store.users = s.users := by
  cases g with
  | authenticateToken =>
    simp only [Gate.run, authenticateToken]
    split
    · rfl
    · split
      · rfl
      · split <;> rfl
  | requireRole roles =>
    simp only [Gate.run, requireRole]
    split
    · rfl
    · split <;> rfl
  | requireProjectAccess =>
    simp only [Gate.run, requireProjectAccess]
    split
    · rfl
    · split
      · rfl
      · split <;> rfl
  | uploadSingle =>
    simp only [Gate.run, uploadSingle]
    split
    · rfl
    · split
      · rfl
      · split
        · rfl
        · split <;> rfl

/-- A chain of middleware in front of a handler preserves every property of the user and
project collections that the handler preserves. -/
theorem runChain_users_projects_property (env : Env) (fresh : Fresh)
    (handler : Store → Req → Store × Response) (I : List User → List Project → Prop)
    (hh : ∀ s req, I s.users s.projects → I (handler s req).1.users (handler s req).1.projects)
    (gates : List Gate) (s : Store) (req : Req) (h : I s.users s.projects) :
    I (runChain env fresh handler gates s req).store.users
      (runChain env fresh handler gates s req).store.projects := by
  induction gates generalizing s req with
  | nil => exact hh s req h
  | cons g gs ih =>
    have hg : I (g.run env fresh s req).store.users (g.run env fresh s req).store.projects := by
      rw [gate_run_users, gate_run_projects]; exact h
    simp only [runChain]
    split
    · exact hg
    · exact ih _ _ hg

/-- A user saved by the modelled user collection is appended under an id that is new. -/
theorem User.save_ok {env : Env} {fresh : Fresh} {users users2 : List User} {b : ReqBody}
    (h : User.save env fresh users b = .ok users2) :
    ∃ u : User, users2 = users ++ [u] ∧ u._id = fresh.oid ∧
      ∀ v ∈ users, v._id ≠ fresh.oid := by
  unfold User.save at h
  split at h
  · cases h
  · split at h
    · cases h
    · rename_i hdup
      simp only [Except.ok.injEq] at h
      refine ⟨_, h.symm, rfl, ?_⟩
      intro v hv heq
      exact hdup (List.any_eq_true.mpr ⟨v, hv, by simp [heq]⟩)

/-- The two predicates together: creators are admins and user ids are unique. -/
theorem Route.handler_creatorsAreAdmins (env : Env) (fresh : Fresh) (route : Route)
    (hroute : route ≠ .createProject) (s : Store) (req : Req)
    (h : CreatorsAreAdmins s.users s.projects ∧ UniqueUserIds s.users) :
    CreatorsAreAdmins (route.handler env fresh s req).1.users
        (route.handler env fresh s req).1.projects ∧
      UniqueUserIds (route.handler env fresh s req).1.users := by
  cases route with
  | login =>
    simp only [Route.handler, loginHandler]
    split
    · exact h
    · split <;> exact h
  | listUsers => exact h
  | createUser =>
    simp only [Route.handler, createUserHandler]
    split
    · rename_i users2 hsave
      obtain ⟨u, husers, huid, hnew⟩ := User.save_ok hsave
      constructor
      · intro p hp
        obtain ⟨c, hc, hcid, hcrole⟩ := h.1 p hp
        refine ⟨c, ?_, hcid, hcrole⟩
        show c ∈ users2
        rw [husers]
        exact List.mem_append_left _ hc
      · show UniqueUserIds users2
        rw [husers]
        unfold UniqueUserIds
        rw [List.map_append, List.nodup_append]
        refine ⟨h.2, List.nodup_singleton _, ?_⟩
        intro a ha hb
        simp only [List.map_cons, List.map_nil, List.mem_singleton] at hb
        obtain ⟨v, hv, hva⟩ := List.mem_map.mp ha
        exact hnew v hv (by rw [hva, hb, huid])
    · exact h
    · exact h
  | listProjects =>
    simp only [Route.handler, listProjectsHandler]
    split <;> exact h
  | createProject => exact absurd rfl hroute
  | updateStatus =>
    simp only [Route.handler, updateStatusHandler]
    split
    · exact h
    · refine ⟨?_, h.2⟩
      intro p hp
      rcases mem_updateFirst hp with hin | ⟨y, hy, -, rfl⟩
      · exact h.1 p hin
      · exact h.1 y hy
  | listAssignments =>
    simp only [Route.handler, listAssignmentsHandler]
    split <;> exact h
  | assign =>
    simp only [Route.handler, assignHandler]
    split
    · exact h
    · rename_i project hfind
      split
      · exact h
      · split
        · exact h
        · refine ⟨?_, h.2⟩
          intro p hp
          rcases mem_updateFirst hp with hin | ⟨y, -, -, rfl⟩
          · exact h.1 p hin
          · exact h.1 project (Project.findById_some hfind).1
  | unassign =>
    simp only [Route.handler, unassignHandler]
    split
    · exact h
    · refine ⟨?_, h.2⟩
      intro p hp
      rcases mem_updateFirst hp with hin | ⟨y, hy, -, rfl⟩
      · exact h.1 p hin
      · exact h.1 y hy
  | listDocuments => exact h
  | uploadDocument =>
    simp only [Route.handler, uploadDocumentHandler]
    split
    · exact h
    · split
      · exact h
      · split <;> exact h
  | deleteDocument =>
    simp only [Route.handler, deleteDocumentHandler]
    split
    · exact h
    · split <;> exact h
  | availableUsers => exact h
  | projectDetails =>
    simp only [Route.handler, projectDetailsHandler]
    split <;> exact h

/-- Serving a project creation either leaves the store as it was, or appends one project
whose creator is the id of the verified identity of the request, whose role is admin. -/
theorem serve_createProject_store (env : Env) (fresh : Fresh) (s : Store) (req : Req) :
    (serve env fresh .createProject s req).store = s ∨
    ∃ (token : String) (ident : Identity) (P : Project),
      extractToken req.authorization = some token ∧ env.verify token = .ok ident ∧
      ident.role = "admin" ∧ P.createdBy = ident.id ∧
      (serve env fresh .createProject s req).store =
        { s with projects := s.projects ++ [P] } := by
  cases htok : extractToken req.authorization with
  | none =>
    left
    simp [serve, Route.gates, Route.handler, runChain, Gate.run, authenticateToken, htok,
      Effect.respond]
  | some token =>
    by_cases hne : token = ""
    · left
      simp [serve, Route.gates, Route.handler, runChain, Gate.run, authenticateToken, htok,
        hne, Effect.respond]
    · cases hver : env.verify token with
      | error e =>
        left
        simp [serve, Route.gates, Route.handler, runChain, Gate.run, authenticateToken, htok,
          hne, hver, Effect.respond]
      | ok ident =>
        by_cases hrole : ident.role ∈ ["admin"]
        · have hrun := runChain_role_pass env fresh (createProjectHandler fresh) ["admin"]
            s req token ident htok hne hver hrole
          have hstore : (serve env fresh .createProject s req).store =
              (createProjectHandler fresh s { req with user := some ident }).1 := by
            simp [serve, Route.gates, Route.handler, hrun]
          cases hc : Project.create fresh s.projects req.body ident.id with
          | error e =>
            left
            rw [hstore]
            simp [createProjectHandler, hc]
          | ok out =>
            obtain ⟨project, projects⟩ := out
            obtain ⟨-, -, hcreator, -, hp, -⟩ := Project.create_ok hc
            right
            refine ⟨token, ident, project, rfl, hver, by simpa using hrole, hcreator, ?_⟩
            rw [hstore]
            simp [createProjectHandler, hc, hp]
        · left
          have hrun := runChain_role_reject env fresh (createProjectHandler fresh) ["admin"] []
            s req token ident htok hne hver hrole
          simp [serve, Route.gates, Route.handler, hrun]

/-- Serving any request that presents a token matching the stored users keeps creators
admins and user ids unique. -/
theorem serve_creatorsAreAdmins (env : Env) (fresh : Fresh) (route : Route) (s : Store)
    (req : Req) (hhonest : HonestRequest env s req)
    (h : CreatorsAreAdmins s.users s.projects ∧ UniqueUserIds s.users) :
    CreatorsAreAdmins (serve env fresh route s req).store.users
        (serve env fresh route s req).store.projects ∧
      UniqueUserIds (serve env fresh route s req).store.users := by
  by_cases hroute : route = .createProject
  · subst hroute
    rcases serve_createProject_store env fresh s req with hs |
      ⟨token, ident, P, htok, hver, hrole, hcreator, hs⟩
    · rw [hs]; exact h
    · rw [hs]
      refine ⟨?_, h.2⟩
      intro p hp
      simp only [List.mem_append, List.mem_singleton] at hp
      rcases hp with hin | rfl
      · exact h.1 p hin
      · obtain ⟨u, hu, huid, hurole⟩ := hhonest token ident htok hver
        exact ⟨u, hu, by rw [huid, hcreator], by rw [hurole, hrole]⟩
  · exact runChain_users_projects_property env fresh (route.handler env fresh)
      (fun users projects => CreatorsAreAdmins users projects ∧ UniqueUserIds users)
      (fun s2 req2 h2 => Route.handler_creatorsAreAdmins env fresh route hroute s2 req2 h2)
      route.gates s req h

/-- C28: start from a store with no projects (and unique user ids) and serve requests
whose tokens each name a stored user with the token's role; stored roles never change,
since no route modifies a stored user. Then in every store reached the creator of every
project is a stored user with role admin, and for every caller with role project_lead
whose token matches the stored users `GET /api/projects` answers the empty list. -/
theorem project_lead_lists_nothing (env : Env) (s0 s : Store)
    (hstart : s0.projects = []) (huniq : UniqueUserIds s0.users)
    (hreach : ReachableHonest env s0 s) :
    CreatorsAreAdmins s.users s.projects ∧
    (∀ (fresh : Fresh) (req : Req) (token : String) (caller : Identity),
      extractToken req.authorization = some token → token ≠ "" →
      env.verify token = .ok caller → caller.role = "project_lead" →
      HonestRequest env s req →
      (serve env fresh .listProjects s req).response = some ⟨200, .projects []⟩) := by
  have hinv : CreatorsAreAdmins s.users s.projects ∧ UniqueUserIds s.users := by
    induction hreach with
    | start =>
      refine ⟨?_, huniq⟩
      intro p hp
      rw [hstart] at hp
      cases hp
    | step s1 fresh route req _ hhonest ih =>
      exact serve_creatorsAreAdmins env fresh route s1 req hhonest ih
  refine ⟨hinv.1, ?_⟩
  intro fresh req token caller htok hne hver hrole hhonest
  have hresp := serve_listProjects env fresh s req token caller htok hne hver
  have hnone : s.projects.filter (fun p => p.createdBy == caller.id) = [] := by
    rw [List.filter_eq_nil_iff]
    intro p hp hcreated
    have hcid : p.createdBy = caller.id := by simpa using hcreated
    obtain ⟨u, hu, huid, hurole⟩ := hinv.1 p hp
    obtain ⟨v, hv, hvid, hvrole⟩ := hhonest token caller htok hver
    have huv : u = v :=
      List.inj_on_of_nodup_map hinv.2 hu hv (by rw [huid, hvid, hcid])
    rw [huv, hvrole, hrole] at hurole
    exact absurd hurole (by decide)
  rw [hresp]
  have hnotadmin : (caller.role == "admin") = false := by rw [hrole]; decide
  simp [hnotadmin, hrole, hnone, sortProjectsNewestFirst]

/-- Witness for C28: in the sample store without projects the admin creates a project;
afterwards its creator is a stored admin and the project lead `u3` lists no project. -/
theorem project_lead_lists_nothing_witness :
    (serve sampleEnv sampleFresh .createProject sampleEmptyStore sampleCreateReq).store.projects
        ≠ [] ∧
      CreatorsAreAdmins
        (serve sampleEnv sampleFresh .createProject sampleEmptyStore sampleCreateReq).store.users
        (serve sampleEnv sampleFresh .createProject sampleEmptyStore
          sampleCreateReq).store.projects ∧
      (serve sampleEnv sampleFresh .listProjects
        (serve sampleEnv sampleFresh .createProject sampleEmptyStore sampleCreateReq).store
        sampleLeadListReq).response = some ⟨200, .projects []⟩ :=
  have hhonest : ∀ (s : Store) (req : Req), s.users = sampleStore.users →
      HonestRequest sampleEnv s req := by
    intro s req hs token ident _ hver
    rw [hs]
    simp only [sampleEnv] at hver
    split at hver
    · cases hver
      exact ⟨{ _id := "u1", username := "admin", email := "admin@pixelforge.com",
               password := "admin123", role := "admin", createdAt := 1 },
        by simp [sampleStore], rfl, rfl⟩
    · split at hver
      · cases hver
        exact ⟨{ _id := "u2", username := "dana", email := "dana@pixelforge.com",
                 password := "secret", role := "developer", createdAt := 2 },
          by simp [sampleStore], rfl, rfl⟩
      · split at hver
        · cases hver
          exact ⟨{ _id := "u3", username := "lee", email := "lee@pixelforge.com",
                   password := "hidden", role := "project_lead", createdAt := 3 },
            by simp [sampleStore], rfl, rfl⟩
        · cases hver
  have hthm := project_lead_lists_nothing sampleEnv sampleEmptyStore
    (serve sampleEnv sampleFresh .createProject sampleEmptyStore sampleCreateReq).store
    rfl (by unfold UniqueUserIds; decide)
    (ReachableHonest.step sampleEmptyStore sampleFresh .createProject sampleCreateReq
      ReachableHonest.start (hhonest _ _ rfl))
  ⟨by decide, hthm.1,
    hthm.2 sampleFresh sampleLeadListReq "tok-lead"
      { id := "u3", username := "lee", role := "project_lead" }
      (by decide) (by decide) (by simp [sampleEnv]) rfl (hhonest _ _ (by decide))⟩

end PixelForge
